import Mathlib

/-
Verification development for the AWS provider of the cloudify/faast core
(aws provider source: resource provisioning, queue-mode dispatch, response
collector, teardown).  The source is promise-based TypeScript; it is
embedded here as executable Lean definitions: JS runtime values become the
JsValue type, SQS messages become records of the fields the code reads,
the pending-call Map becomes an association list, and concurrency is
rendered as an explicit transition system over atomic turns (the code is
single-threaded cooperative multitasking, so a turn runs from one await to
the next).  JSON.parse / JSON.stringify are serialization-format details
that are out of scope for the core; where the code parses a message body
the model carries the body string itself (the parse is a fixed function of
that string, so correlation and routing facts are unaffected).
-/

namespace Faast

/-- JS-like runtime values, used where the source manipulates untyped
JavaScript data (truthiness tests, field projections). -/
inductive JsValue where
  | undefined
  | nullv
  | boolean (b : Bool)
  | number (n : Int)
  | string (s : String)
  | object (fields : List (String × JsValue))

instance : Inhabited JsValue := ⟨JsValue.undefined⟩

/-- JavaScript truthiness: undefined, null, false, 0 and the empty string
are falsy; every object is truthy. -/
def truthy : JsValue → Bool
  | .undefined => false
  | .nullv => false
  | .boolean b => b
  | .number n => n != 0
  | .string s => s != ""
  | .object _ => true

/-- Field projection on a JS object; undefined on non-objects and missing
fields. -/
def jsField : JsValue → String → JsValue
  | .object fs, k => (List.lookup k fs).getD .undefined
  | _, _ => .undefined

/-- Truthiness of an optional string, as in the tests
`if (rawResponse.FunctionError)` and `if (!resources.region)`: absent and
empty strings are falsy. -/
def truthyOptStr : Option String → Bool
  | none => false
  | some s => s != ""

/-- An SQS message as the collector reads it: the MessageAttributes entries
CallId.StringValue and cloudify.StringValue, and the Body. -/
structure SqsMessage where
  messageId : String
  callIdAttr : Option String
  cloudifyAttr : Option String
  body : Option String
deriving Repr, DecidableEq

/-- isQueueStopMessage: a message whose cloudify message attribute has
StringValue "stop". -/
def isQueueStopMessage (m : SqsMessage) : Bool :=
  m.cloudifyAttr == some "stop"

/-- State of one Deferred (pending result slot): still waiting, or already
settled (resolved or rejected; settling a settled promise is a no-op). -/
inductive DStatus where
  | waiting
  | settled
deriving Repr, DecidableEq

/-- The callResultPromises Map: CallId to the slot status.  Keys are unique
in a JS Map. -/
abbrev PendingMap := List (String × DStatus)

/-- Map.delete: remove the entry with the given key. -/
def eraseKey (k : String) : PendingMap → PendingMap
  | [] => []
  | (c, s) :: rest => if c = k then rest else (c, s) :: eraseKey k rest

/-- Observable settlements and drops performed by the collector.
resolveSlot carries the body string of the message used (the code resolves
with returned = JSON.parse of that body and rawResponse = the message). -/
inductive CollectorEvent where
  | resolveSlot (callId : String) (body : String) (raw : SqsMessage)
  | rejectSlot (callId : String) (msg : String)
  | dropUnknown (callId : String)
deriving Repr, DecidableEq

/-- resolvePromises: for each collected (CallId, message, deferred) triple,
skip bodyless messages, log and drop when no deferred was found, otherwise
resolve the deferred (a no-op if it was already settled). -/
def resolvePromises : List (String × SqsMessage × Option DStatus) → List CollectorEvent
  | [] => []
  | (cid, m, dstat) :: rest =>
    match m.body with
    | none => resolvePromises rest
    | some b =>
      match dstat with
      | none => .dropUnknown cid :: resolvePromises rest
      | some .waiting => .resolveSlot cid b m :: resolvePromises rest
      | some .settled => resolvePromises rest

/-- rejectAll: reject every promise still in the map (the entries are not
removed from the map by the code).  Only waiting slots observably settle. -/
def rejectEvents (map : PendingMap) : List CollectorEvent :=
  map.filterMap fun e =>
    if e.2 = DStatus.waiting then
      some (.rejectSlot e.1 "Call to cloud function cancelled in cleanup")
    else none

/-- After rejectAll the map entries remain but every deferred is settled. -/
def settleAll (map : PendingMap) : PendingMap :=
  map.map fun e => (e.1, DStatus.settled)

/-- Outcome of one pass of the resultCollector loop body over a received
batch: the updated map, the observable settlement events, and whether the
loop returned because of a stop sentinel. -/
structure BatchOutcome where
  newMap : PendingMap
  events : List CollectorEvent
  exited : Bool
deriving Repr, DecidableEq

/-- The for-loop of resultCollector over one received batch (source lines
566-581), with acc playing the role of the callResults array:
a stop sentinel rejects everything still in the map and returns
immediately - note the collected callResults are discarded because the
return skips the setTimeout that schedules resolvePromises; a message
without a CallId attribute raises a TypeError that the surrounding
try/catch logs, likewise abandoning the collected callResults; otherwise
the deferred is looked up, the entry deleted, and the triple collected.
When the batch is exhausted resolvePromises runs over the collected
triples. -/
def collectLoop (map : PendingMap) (msgs : List SqsMessage)
    (acc : List (String × SqsMessage × Option DStatus)) : BatchOutcome :=
  match msgs with
  | [] => ⟨map, resolvePromises acc, false⟩
  | m :: rest =>
    if isQueueStopMessage m then
      ⟨settleAll map, rejectEvents map, true⟩
    else
      match m.callIdAttr with
      | none => ⟨map, [], false⟩
      | some cid => collectLoop (eraseKey cid map) rest (acc ++ [(cid, m, List.lookup cid map)])

/-- One iteration of the resultCollector loop body applied to a received
batch. -/
def processBatch (map : PendingMap) (msgs : List SqsMessage) : BatchOutcome :=
  collectLoop map msgs []

/-- Per-instance dispatch state as seen between turns of the cooperative
scheduler: the callResultPromises map, whether resultCollectorPromise is
set, and how many resultCollector tasks are actually running. -/
structure SysState where
  pendingMap : PendingMap
  handle : Bool
  collectors : Nat
deriving Repr, DecidableEq

/-- The state just after a State is built: empty map, no collector. -/
def initState : SysState := ⟨[], false, 0⟩

/-- startResultCollectorIfNeeded: start a collector task (and record its
handle) only when the map is non-empty and no handle is present. -/
def startIfNeeded (s : SysState) : SysState :=
  if !s.pendingMap.isEmpty && !s.handle then
    ⟨s.pendingMap, true, s.collectors + 1⟩
  else s

/-- enqueueCallRequest: register a fresh waiting slot under its CallId,
then startResultCollectorIfNeeded, all in one turn. -/
def enqueueCallRequest (s : SysState) (c : String) : SysState :=
  startIfNeeded ⟨s.pendingMap ++ [(c, DStatus.waiting)], s.handle, s.collectors⟩

/-- One turn of the running collector after receiveMessage returns a
batch: process the batch; on a stop sentinel the task clears the handle
and returns; otherwise the while condition is re-checked and the task
likewise clears the handle and returns when the map has emptied (it then
schedules startResultCollectorIfNeeded, modelled as a separate restart
turn). -/
def collectorTurn (s : SysState) (msgs : List SqsMessage) : SysState :=
  let out := processBatch s.pendingMap msgs
  if out.exited then ⟨out.newMap, false, s.collectors - 1⟩
  else if out.newMap.isEmpty then ⟨out.newMap, false, s.collectors - 1⟩
  else ⟨out.newMap, s.handle, s.collectors⟩

/-- Atomic turns of the tasks that touch the dispatch state: an invoke
registering a call, the collector consuming one received batch (only a
running collector can take this step), and the scheduled
startResultCollectorIfNeeded re-entry check. -/
inductive SysStep : SysState → SysState → Prop where
  | enqueue (s : SysState) (c : String) : SysStep s (enqueueCallRequest s c)
  | deliver (s : SysState) (msgs : List SqsMessage) :
      s.handle = true → SysStep s (collectorTurn s msgs)
  | restart (s : SysState) : SysStep s (startIfNeeded s)

/-- States reachable from the freshly built instance state. -/
inductive Reachable : SysState → Prop where
  | init : Reachable initState
  | step {s s2 : SysState} : Reachable s → SysStep s s2 → Reachable s2

/-- The synchronous and suspending steps of one queue-mode invoke, in the
order the source performs them (responsifedFunc, queue path). -/
inductive QueueStep where
  | genCallId
  | buildFunctionCall
  | serializeCall
  | createDeferredSlot
  | registerSlot
  | startCollectorCheck
  | publishToTopic
  | suspendAwait
  | awaitResponseSlot
deriving Repr, DecidableEq

/-- The queue path of one invoke: generate the CallId, build and serialize
the FunctionCall, then enqueueCallRequest (create the deferred, set it in
the map under the CallId, startResultCollectorIfNeeded), then initiate
sns.publish and suspend awaiting it, then suspend awaiting the slot. -/
def queueInvokeSteps : List QueueStep :=
  [.genCallId, .buildFunctionCall, .serializeCall, .createDeferredSlot,
   .registerSlot, .startCollectorCheck, .publishToTopic, .suspendAwait,
   .awaitResponseSlot]

/-- FunctionReturn on the wire: a type tag ("value" or "error") and a
value; on "error" the value carries message, name and stack fields. -/
structure FunctionReturn where
  type : String
  value : JsValue

/-- A JS Error as the façade reconstructs it: name, message, stack. -/
structure ErrorObj where
  name : JsValue
  message : JsValue
  stack : JsValue

/-- The direct-mode lambda.invoke response fields the code reads. -/
structure LambdaInvokeResponse where
  functionError : Option String
  logResult : Option String
  payload : Option String

/-- The rawResponse passed through to the caller: the SQS message in queue
mode, the lambda.invoke envelope in direct mode. -/
inductive RawResponse where
  | sqsMessage (m : SqsMessage)
  | lambdaResponse (r : LambdaInvokeResponse)

/-- The record an invoke resolves with. -/
structure Response where
  value : JsValue
  error : Option ErrorObj
  rawResponse : RawResponse

/-- The shared tail of responsifedFunc (source lines 654-661): a returned
FunctionReturn with type "error" becomes an Error rebuilt from the name,
message and stack fields of its value; value is the JS expression
(not error) and returned and returned.value, which is false when an error
is set and undefined when nothing was returned. -/
def applyReturnMapping (returned : Option FunctionReturn) (error0 : Option ErrorObj)
    (raw : RawResponse) : Response :=
  let error : Option ErrorObj :=
    match returned with
    | some r =>
      if r.type == "error" then
        some ⟨jsField r.value "name", jsField r.value "message", jsField r.value "stack"⟩
      else error0
    | none => error0
  let value : JsValue :=
    if error.isSome then .boolean false
    else
      match returned with
      | none => .undefined
      | some r => r.value
  ⟨value, error, raw⟩

/-- Queue path result: the awaited slot yields the parsed FunctionReturn
and the SQS message as rawResponse; no transport error was set before. -/
def invokeResultQueue (returned : FunctionReturn) (message : SqsMessage) : Response :=
  applyReturnMapping (some returned) none (.sqsMessage message)

/-- Direct path result (source lines 639-652): when FunctionError is set
(a non-empty string) the payload becomes a transport Error and no
FunctionReturn is decoded; otherwise a present non-empty payload is
JSON-decoded into a FunctionReturn (the decode is passed in as parse; a
falsy payload leaves returned unset). -/
def invokeResultDirect (raw : LambdaInvokeResponse)
    (parse : String → FunctionReturn) : Response :=
  let error0 : Option ErrorObj :=
    if truthyOptStr raw.functionError then
      some ⟨.string "Error", .string (raw.payload.getD ""), .undefined⟩
    else none
  let returned : Option FunctionReturn :=
    if error0.isSome then none
    else
      match raw.payload with
      | none => none
      | some p => if p == "" then none else some (parse p)
  applyReturnMapping returned error0 (.lambdaResponse raw)

/-- Error thrown when the bounded poll exhausts its attempts (the spec
calls this kind ProvisioningTimeout; the code throws an Error whose
message names the polled description). -/
inductive PollError where
  | provisioningTimeout (description : String)
deriving Repr, DecidableEq

/-- Result of a poll: the returned value or the timeout error, how many
attempts ran, and the sleeps performed in milliseconds. -/
structure PollOutcome (T : Type) where
  result : Except PollError T
  attemptsMade : Nat
  sleepsMs : List Nat

/-- The attempt loop of pollAWSRequest: run the attempt (quietly, so a
provider error surfaces as an untruthy value), return a truthy result,
otherwise sleep 1000ms and retry; after the last attempt throw. -/
def pollLoop {T : Type} (truthyT : T → Bool) (description : String)
    (attempt : Nat → T) (i : Nat) (remaining : Nat) : PollOutcome T :=
  match remaining with
  | 0 => ⟨.error (.provisioningTimeout description), 0, []⟩
  | r + 1 =>
    let res := attempt i
    if truthyT res then ⟨.ok res, 1, []⟩
    else
      let rest := pollLoop truthyT description attempt (i + 1) r
      ⟨rest.result, rest.attemptsMade + 1, 1000 :: rest.sleepsMs⟩

/-- pollAWSRequest: sleep the 2000ms settle delay, then up to n attempts
with a 1000ms sleep after each failed attempt; exhaustion throws. -/
def pollAWSRequest {T : Type} (truthyT : T → Bool) (n : Nat) (description : String)
    (attempt : Nat → T) : PollOutcome T :=
  let inner := pollLoop truthyT description attempt 0 n
  ⟨inner.result, inner.attemptsMade, 2000 :: inner.sleepsMs⟩

/-- The two failure shapes createSNSNotifier can produce: a propagated
polling failure, or the post-poll "Could not initialize lambda execution
role" error. -/
inductive NotifierError where
  | pollFailed (e : PollError)
  | roleInitFailed
deriving Repr, DecidableEq

/-- Environment of one createSNSNotifier run: the TopicArn returned by
sns.createTopic, and the value each quietly-run setTopicAttributes
attempt settles with (undefined when the SDK call failed). -/
structure NotifierEnv where
  topicArn : String
  attempts : Nat → JsValue

/-- createSNSNotifier (source lines 296-318): create the topic, poll
setting the failure-feedback role attribute with n = 100, and if the poll
result is untruthy throw the role-initialization error, else return the
TopicArn. -/
def createSNSNotifier (env : NotifierEnv) : Except NotifierError String :=
  let out := pollAWSRequest truthy 100
    "role for SNS invocation of lambda function failure feedback" env.attempts
  match out.result with
  | .error e => .error (.pollFailed e)
  | .ok success => if truthy success then .ok env.topicArn else .error .roleInitFailed

/-- Concrete notifier environment used as a witness input: every
setTopicAttributes attempt settles with a truthy SDK response object. -/
def envSample : NotifierEnv := ⟨"arn1", fun _ => JsValue.object []⟩

/-- Role-handling mode: ephemeral per-instance role, or cached well-known
role that is never deleted. -/
inductive RoleHandling where
  | createTemporaryRole
  | createOrReuseCachedRole
deriving Repr, DecidableEq

/-- The resources manifest.  cleanup accepts a PartialState whose
resources record may have any subset of its fields, so every field is
optional here. -/
structure AWSResources where
  FunctionName : Option String
  RoleName : Option String
  rolePolicy : Option RoleHandling
  logGroupName : Option String
  region : Option String
  RequestTopicArn : Option String
  ResponseQueueUrl : Option String
  DeadLetterQueueUrl : Option String
  SNSLambdaSubscriptionArn : Option String
  SNSFeedbackRole : Option String
deriving Repr, DecidableEq

/-- The externally visible operations cleanup performs, in the order it
awaits them (sends are ordered at their initiation point; awaitCollectors
is the await of the cancelWithoutCleanup promise). -/
inductive CleanupAction where
  | unsubscribe (arn : String)
  | sendStopToResponseQueue (url : String)
  | sendStopToDLQ (url : String)
  | deleteFunction (name : String)
  | deleteLogGroup (name : String)
  | deleteExecutionRole (name : String)
  | deleteFeedbackRole (name : String)
  | awaitCollectors
  | deleteRequestTopic (arn : String)
  | deleteResponseQueue (url : String)
  | deleteDeadLetterQueue (url : String)
deriving Repr, DecidableEq

/-- One best-effort action for a manifest field when it is present. -/
def optAct {A : Type} (o : Option A) (f : A → CleanupAction) : List CleanupAction :=
  match o with
  | none => []
  | some a => [f a]

/-- The synchronous prefix of cancelWithoutCleanup: send the response
queue stop sentinel only when both the queue URL and the collector handle
exist, and the DLQ stop sentinel when the DLQ URL exists. -/
def cancelSends (r : AWSResources) (hasCollector : Bool) : List CleanupAction :=
  (if hasCollector then optAct r.ResponseQueueUrl .sendStopToResponseQueue else [])
    ++ optAct r.DeadLetterQueueUrl .sendStopToDLQ

/-- cleanup (source lines 690-742), as the ordered list of operations it
performs: unsubscribe the topic-to-function subscription, start
cancelWithoutCleanup (which immediately initiates the stop sentinel
sends), delete the function, the log group, and - only under the
ephemeral role policy - the execution and feedback roles, then await the
cancel promise (collector shutdown), then delete the request topic, the
response queue and the dead-letter queue.  Every deletion is wrapped in
quietly or carefully in the source, so a missing cloud resource never
fails the action; a missing manifest field skips it. -/
def cleanup (r : AWSResources) (hasCollector : Bool) : List CleanupAction :=
  optAct r.SNSLambdaSubscriptionArn .unsubscribe
    ++ cancelSends r hasCollector
    ++ optAct r.FunctionName .deleteFunction
    ++ optAct r.logGroupName .deleteLogGroup
    ++ (if r.rolePolicy == some .createTemporaryRole then
          optAct r.RoleName .deleteExecutionRole
        else [])
    ++ (if r.rolePolicy == some .createTemporaryRole then
          optAct r.SNSFeedbackRole .deleteFeedbackRole
        else [])
    ++ [.awaitCollectors]
    ++ optAct r.RequestTopicArn .deleteRequestTopic
    ++ optAct r.ResponseQueueUrl .deleteResponseQueue
    ++ optAct r.DeadLetterQueueUrl .deleteDeadLetterQueue

/-- Modelled from the spec (teardown order of section 4.7 and claim C7,
for comparison with the cleanup defined from the source): unsubscribe,
then send the stop sentinels AND await the collectors, then delete
function, log group, ephemeral roles, topic, response queue, DLQ. -/
def cleanupSpecOrder (r : AWSResources) (hasCollector : Bool) : List CleanupAction :=
  optAct r.SNSLambdaSubscriptionArn .unsubscribe
    ++ cancelSends r hasCollector
    ++ [.awaitCollectors]
    ++ optAct r.FunctionName .deleteFunction
    ++ optAct r.logGroupName .deleteLogGroup
    ++ (if r.rolePolicy == some .createTemporaryRole then
          optAct r.RoleName .deleteExecutionRole
        else [])
    ++ (if r.rolePolicy == some .createTemporaryRole then
          optAct r.SNSFeedbackRole .deleteFeedbackRole
        else [])
    ++ optAct r.RequestTopicArn .deleteRequestTopic
    ++ optAct r.ResponseQueueUrl .deleteResponseQueue
    ++ optAct r.DeadLetterQueueUrl .deleteDeadLetterQueue

/-- Position of each action kind in the order cleanup performs them. -/
def stage : CleanupAction → Nat
  | .unsubscribe _ => 0
  | .sendStopToResponseQueue _ => 1
  | .sendStopToDLQ _ => 2
  | .deleteFunction _ => 3
  | .deleteLogGroup _ => 4
  | .deleteExecutionRole _ => 5
  | .deleteFeedbackRole _ => 6
  | .awaitCollectors => 7
  | .deleteRequestTopic _ => 8
  | .deleteResponseQueue _ => 9
  | .deleteDeadLetterQueue _ => 10

/-- A list of cleanup actions in nondecreasing stage order. -/
def StageSorted (l : List CleanupAction) : Prop :=
  l.Pairwise fun a b => stage a ≤ stage b

/-- The actions that delete a cloud resource (as opposed to the sends,
the unsubscribe and the collector await). -/
def isDeletion : CleanupAction → Bool
  | .deleteFunction _ => true
  | .deleteLogGroup _ => true
  | .deleteExecutionRole _ => true
  | .deleteFeedbackRole _ => true
  | .deleteRequestTopic _ => true
  | .deleteResponseQueue _ => true
  | .deleteDeadLetterQueue _ => true
  | _ => false

/-- Error thrown by cleanupResources when the parsed manifest has a falsy
region (the spec calls this kind MalformedManifest). -/
inductive ManifestError where
  | malformedManifest
deriving Repr, DecidableEq

/-- cleanupResources (source lines 757-764), applied to the record
JSON.parse produced from the manifest string: throw synchronously when
region is falsy, otherwise rebuild the SDK clients from the region and
run cleanup over a state with an empty callResultPromises map and no
resultCollectorPromise. -/
def cleanupResources (resources : AWSResources) : Except ManifestError (List CleanupAction) :=
  if truthyOptStr resources.region = false then .error .malformedManifest
  else .ok (cleanup resources false)

/-- The awaited steps of the try block of the provisioning entry point, in
the order the main task suspends on them.  createFunction runs
concurrently; its failures (including the fatal name-collision probe
before the function is created) surface at the awaitCreateFunction step.
Failures of the fire-and-forget DLQ drain never surface. -/
inductive InitStep where
  | createLogGroup
  | createDLQQueue
  | getDLQAttributes
  | createSNSFeedbackRole
  | createSNSNotifierStep
  | createResponseQueue
  | awaitCreateFunction
  | addPermission
  | subscribeTopic
deriving Repr, DecidableEq

/-- The step sequence: log group, DLQ creation, DLQ ARN lookup, then in
queue mode the feedback role, the request topic and the response queue,
then the await of the concurrent function creation, then in queue mode
the SNS invoke permission and the topic subscription. -/
def initSteps (useQueue : Bool) : List InitStep :=
  [.createLogGroup, .createDLQQueue, .getDLQAttributes]
    ++ (if useQueue then
          [.createSNSFeedbackRole, .createSNSNotifierStep, .createResponseQueue]
        else [])
    ++ [.awaitCreateFunction]
    ++ (if useQueue then [.addPermission, .subscribeTopic] else [])

/-- Names and identifiers the provisioning run would assign (derived from
the nonce and options in the source). -/
structure InitNames where
  functionName : String
  roleName : String
  logGroupName : String
  region : String
  rolePolicy : RoleHandling
  dlqUrl : String
  feedbackRoleName : String
  requestTopicArn : String
  responseQueueUrl : String
  subscriptionArn : String

/-- The manifest built before the try block: function name, role name,
role policy, log group name and region are recorded up front; every other
field is recorded only when its resource is created. -/
def baseResources (names : InitNames) : AWSResources :=
  ⟨some names.functionName, some names.roleName, some names.rolePolicy,
   some names.logGroupName, some names.region, none, none, none, none, none⟩

/-- Manifest effect of one successfully completed step: the DLQ URL is
recorded between queue creation and the ARN lookup, the feedback role,
topic ARN, response queue URL and subscription ARN on completion of their
steps; the remaining steps record nothing. -/
def applyStep (names : InitNames) (r : AWSResources) : InitStep → AWSResources
  | .createLogGroup => r
  | .createDLQQueue => { r with DeadLetterQueueUrl := some names.dlqUrl }
  | .getDLQAttributes => r
  | .createSNSFeedbackRole => { r with SNSFeedbackRole := some names.feedbackRoleName }
  | .createSNSNotifierStep => { r with RequestTopicArn := some names.requestTopicArn }
  | .createResponseQueue => { r with ResponseQueueUrl := some names.responseQueueUrl }
  | .awaitCreateFunction => r
  | .addPermission => r
  | .subscribeTopic => { r with SNSLambdaSubscriptionArn := some names.subscriptionArn }

/-- The try/catch of the provisioning entry point: run the steps in
order; a failing step records nothing, and the catch block awaits
cleanup of the partial state (no resultCollectorPromise exists yet, so
hasCollector is false) before rethrowing.  The error value carries the
partial manifest and the cleanup actions performed before propagation. -/
def runInit (names : InitNames) (r : AWSResources) (steps : List InitStep)
    (failsAt : InitStep → Bool) : Except (AWSResources × List CleanupAction) AWSResources :=
  match steps with
  | [] => .ok r
  | s :: rest =>
    if failsAt s then .error (r, cleanup r false)
    else runInit names (applyStep names r s) rest failsAt

/-- The provisioning entry point over the failure environment failsAt
(which steps fail when executed). -/
def provisionAWS (names : InitNames) (useQueue : Bool)
    (failsAt : InitStep → Bool) : Except (AWSResources × List CleanupAction) AWSResources :=
  runInit names (baseResources names) (initSteps useQueue) failsAt

/-- Keys of the pending map are unique, as in a JS Map. -/
def keysNodup (map : PendingMap) : Prop :=
  (map.map Prod.fst).Nodup

instance : DecidablePred keysNodup := fun map => by
  unfold keysNodup; infer_instance

/-- A batch with no stop sentinel in which every message carries a CallId
attribute and a body. -/
def batchWellFormed (msgs : List SqsMessage) : Prop :=
  ∀ m ∈ msgs, isQueueStopMessage m = false ∧ m.callIdAttr ≠ none ∧ m.body ≠ none

instance : DecidablePred batchWellFormed := fun msgs => by
  unfold batchWellFormed; infer_instance

/-- Concrete two-slot pending map used as a witness input. -/
def sampleMap : PendingMap := [("A", DStatus.waiting), ("B", DStatus.waiting)]

/-- Concrete batch used as a witness input: both replies out of order and
one reply with an unknown CallId. -/
def sampleBatch : List SqsMessage :=
  [⟨"1", some "B", none, some "rB"⟩, ⟨"2", some "A", none, some "rA"⟩,
   ⟨"3", some "X", none, some "rX"⟩]

/-- The stop sentinel message as sent by sendQueueStopMessage. -/
def stopMessage : SqsMessage := ⟨"m-stop", none, some "stop", some "empty"⟩

/-- The state reached by one queue-mode invoke followed by the collector
consuming a batch holding only the stop sentinel. -/
def afterStopState : SysState :=
  collectorTurn (enqueueCallRequest initState "a") [stopMessage]

/-- Concrete reply message used as a witness input. -/
def msgSample : SqsMessage := ⟨"m9", some "C", none, some "body9"⟩

/-- Concrete error FunctionReturn used as a witness input. -/
def retErrSample : FunctionReturn :=
  ⟨"error", .object [("message", .string "x"), ("name", .string "TypeError"),
    ("stack", .string "st")]⟩

/-- Concrete value FunctionReturn used as a witness input. -/
def retValSample : FunctionReturn := ⟨"value", .number 5⟩

/-- Concrete direct-mode envelope with FunctionError set, used as a
witness input. -/
def lambdaErrSample : LambdaInvokeResponse :=
  ⟨some "Unhandled", some "bG9ncw==", some "errpayload"⟩

/-- A fully populated manifest with the ephemeral role policy, used as a
concrete input. -/
def manifestFull : AWSResources :=
  ⟨some "fn", some "role", some .createTemporaryRole, some "lg", some "us-west-1",
   some "topic", some "rq", some "dlq", some "sub", some "fbrole"⟩

/-- Concrete provisioning names used as a witness input. -/
def namesSample : InitNames :=
  ⟨"cloudify-n0", "cloudify-role-n0", "/aws/lambda/cloudify-n0", "us-west-1",
   .createTemporaryRole, "dlqUrl0", "fbrole0", "topicArn0", "respUrl0", "subArn0"⟩

/-- The partial manifest accumulated when the concurrent createFunction
fails at its await (for example on the name-collision probe) in queue
mode with the namesSample identifiers: the DLQ, feedback role, request
topic and response queue are already recorded, the subscription is not. -/
def manifestAtCollision : AWSResources :=
  ⟨some "cloudify-n0", some "cloudify-role-n0", some .createTemporaryRole,
   some "/aws/lambda/cloudify-n0", some "us-west-1", some "topicArn0",
   some "respUrl0", some "dlqUrl0", none, some "fbrole0"⟩

/-- C2: in queue mode every invoke first creates the pending slot,
registers it in the pending map under its fresh CallId and starts the
collector if not running, and only then initiates the publish of the
serialized FunctionCall to the request topic; no suspension point occurs
between registration and the start of the publish (the first suspension
of the queue path comes after the publish has been initiated). -/
theorem registrationBeforePublish :
    queueInvokeSteps.indexOf QueueStep.createDeferredSlot
        < queueInvokeSteps.indexOf QueueStep.registerSlot ∧
    queueInvokeSteps.indexOf QueueStep.registerSlot
        < queueInvokeSteps.indexOf QueueStep.startCollectorCheck ∧
    queueInvokeSteps.indexOf QueueStep.startCollectorCheck
        < queueInvokeSteps.indexOf QueueStep.publishToTopic ∧
    ((queueInvokeSteps.take (queueInvokeSteps.indexOf QueueStep.publishToTopic + 1)).drop
        (queueInvokeSteps.indexOf QueueStep.registerSlot)).all
      (fun s => s != QueueStep.suspendAwait) = true ∧
    QueueStep.suspendAwait ∈ queueInvokeSteps := by
  decide

theorem resolveSlot_mem_resolvePromises {c : String} {b : String} {raw : SqsMessage}
    {acc : List (String × SqsMessage × Option DStatus)} :
    CollectorEvent.resolveSlot c b raw ∈ resolvePromises acc ↔
      ((c, raw, some DStatus.waiting) ∈ acc ∧ raw.body = some b) := by
  induction acc with
  | nil => simp [resolvePromises]
  | cons e rest ih =>
    obtain ⟨cid, m, dstat⟩ := e
    match hb : m.body, dstat with
    | none, d =>
      simp only [resolvePromises, hb, ih, List.mem_cons]
      constructor
      · exact fun h => ⟨Or.inr h.1, h.2⟩
      · rintro ⟨h1 | h1, h2⟩
        · injection h1 with hc h1
          injection h1 with hm hd
          subst hm; subst hc
          rw [hb] at h2; cases h2
        · exact ⟨h1, h2⟩
    | some bv, none =>
      simp only [resolvePromises, hb, ih, List.mem_cons]
      constructor
      · rintro (h | ⟨h1, h2⟩)
        · cases h
        · exact ⟨Or.inr h1, h2⟩
      · rintro ⟨h1 | h1, h2⟩
        · injection h1 with hc h1
          injection h1 with hm hd
          cases hd
        · exact Or.inr ⟨h1, h2⟩
    | some bv, some DStatus.waiting =>
      simp only [resolvePromises, hb, ih, List.mem_cons]
      constructor
      · rintro (h | ⟨h1, h2⟩)
        · injection h with hc hbv hraw
          subst hc; subst hraw; subst hbv
          exact ⟨Or.inl rfl, hb⟩
        · exact ⟨Or.inr h1, h2⟩
      · rintro ⟨h1 | h1, h2⟩
        · injection h1 with hc h1
          injection h1 with hm hd
          subst hc; subst hm
          rw [hb] at h2
          injection h2 with hbv
          subst hbv
          exact Or.inl rfl
        · exact Or.inr ⟨h1, h2⟩
    | some bv, some DStatus.settled =>
      simp only [resolvePromises, hb, ih, List.mem_cons]
      constructor
      · rintro ⟨h1, h2⟩
        exact ⟨Or.inr h1, h2⟩
      · rintro ⟨h1 | h1, h2⟩
        · injection h1 with hc h1
          injection h1 with hm hd
          cases hd
        · exact ⟨h1, h2⟩

theorem dropUnknown_mem_resolvePromises {c : String}
    {acc : List (String × SqsMessage × Option DStatus)} :
    CollectorEvent.dropUnknown c ∈ resolvePromises acc ↔
      ∃ m : SqsMessage, (c, m, (none : Option DStatus)) ∈ acc ∧ m.body ≠ none := by
  induction acc with
  | nil => simp [resolvePromises]
  | cons e rest ih =>
    obtain ⟨cid, m, dstat⟩ := e
    match hb : m.body, dstat with
    | none, d =>
      simp only [resolvePromises, hb, ih, List.mem_cons]
      constructor
      · rintro ⟨m2, h1, h2⟩
        exact ⟨m2, Or.inr h1, h2⟩
      · rintro ⟨m2, h1 | h1, h2⟩
        · injection h1 with hc h1
          injection h1 with hm hd
          subst hm
          exact absurd hb h2
        · exact ⟨m2, h1, h2⟩
    | some bv, none =>
      simp only [resolvePromises, hb, ih, List.mem_cons]
      constructor
      · rintro (h | h)
        · injection h with hc
          subst hc
          exact ⟨m, Or.inl rfl, by simp [hb]⟩
        · obtain ⟨m2, h1, h2⟩ := h
          exact ⟨m2, Or.inr h1, h2⟩
      · rintro ⟨m2, h1 | h1, h2⟩
        · injection h1 with hc h1
          subst hc
          exact Or.inl rfl
        · exact Or.inr ⟨m2, h1, h2⟩
    | some bv, some DStatus.waiting =>
      simp only [resolvePromises, hb, ih, List.mem_cons]
      constructor
      · rintro (h | h)
        · cases h
        · obtain ⟨m2, h1, h2⟩ := h
          exact ⟨m2, Or.inr h1, h2⟩
      · rintro ⟨m2, h1 | h1, h2⟩
        · injection h1 with hc h1
          injection h1 with hm hd
          cases hd
        · exact Or.inr ⟨m2, h1, h2⟩
    | some bv, some DStatus.settled =>
      simp only [resolvePromises, hb, ih, List.mem_cons]
      constructor
      · rintro ⟨m2, h1, h2⟩
        exact ⟨m2, Or.inr h1, h2⟩
      · rintro ⟨m2, h1 | h1, h2⟩
        · injection h1 with hc h1
          injection h1 with hm hd
          cases hd
        · exact ⟨m2, h1, h2⟩

theorem resolveSlot_not_mem_rejectEvents {c b : String} {raw : SqsMessage}
    {map : PendingMap} :
    CollectorEvent.resolveSlot c b raw ∉ rejectEvents map := by
  intro h
  rw [rejectEvents, List.mem_filterMap] at h
  obtain ⟨e, _, he⟩ := h
  by_cases hw : e.2 = DStatus.waiting
  · rw [if_pos hw] at he
    cases he
  · rw [if_neg hw] at he
    cases he

theorem dropUnknown_not_mem_rejectEvents {c : String} {map : PendingMap} :
    CollectorEvent.dropUnknown c ∉ rejectEvents map := by
  intro h
  rw [rejectEvents, List.mem_filterMap] at h
  obtain ⟨e, _, he⟩ := h
  by_cases hw : e.2 = DStatus.waiting
  · rw [if_pos hw] at he
    cases he
  · rw [if_neg hw] at he
    cases he

theorem lookup_eraseKey_ne {c k : String} (h : ¬ c = k) :
    ∀ map : PendingMap, List.lookup c (eraseKey k map) = List.lookup c map := by
  intro map
  induction map with
  | nil => rfl
  | cons e rest ih =>
    obtain ⟨a, v⟩ := e
    by_cases hak : a = k
    · subst hak
      have hc : (c == a) = false := by simp [h]
      simp [eraseKey, List.lookup, hc]
    · simp only [eraseKey, if_neg hak]
      by_cases hca : c = a
      · subst hca
        simp [List.lookup]
      · have hc : (c == a) = false := by simp [hca]
        simp [List.lookup, hc, ih]

theorem lookup_eraseKey_none {c k : String} :
    ∀ map : PendingMap, List.lookup c map = none →
      List.lookup c (eraseKey k map) = none := by
  intro map
  induction map with
  | nil => intro _; rfl
  | cons e rest ih =>
    obtain ⟨a, v⟩ := e
    intro h
    by_cases hca : c = a
    · subst hca
      simp [List.lookup] at h
    · have hc : (c == a) = false := by simp [hca]
      simp only [List.lookup, hc] at h
      by_cases hak : a = k
      · simp only [eraseKey, if_pos hak]
        exact h
      · simp [eraseKey, hak, List.lookup, hc, ih h]

theorem lookup_eq_none_of_not_mem_keys {c : String} :
    ∀ map : PendingMap, c ∉ map.map Prod.fst → List.lookup c map = none := by
  intro map
  induction map with
  | nil => intro _; rfl
  | cons e rest ih =>
    obtain ⟨a, v⟩ := e
    intro h
    simp only [List.map_cons, List.mem_cons] at h
    push_neg at h
    have hc : (c == a) = false := by simp [h.1]
    simp [List.lookup, hc, ih h.2]

theorem keysNodup_eraseKey {k : String} :
    ∀ map : PendingMap, keysNodup map → keysNodup (eraseKey k map) := by
  intro map
  induction map with
  | nil => intro h; exact h
  | cons e rest ih =>
    obtain ⟨a, v⟩ := e
    intro h
    rw [keysNodup, List.map_cons, List.nodup_cons] at h
    by_cases hak : a = k
    · simp only [eraseKey, if_pos hak]
      exact h.2
    · simp only [eraseKey, if_neg hak]
      rw [keysNodup, List.map_cons, List.nodup_cons]
      refine ⟨?_, ih h.2⟩
      intro hmem
      apply h.1
      clear ih h
      induction rest with
      | nil => cases hmem
      | cons e2 r2 ih2 =>
        obtain ⟨a2, v2⟩ := e2
        by_cases h2 : a2 = k
        · simp only [eraseKey, if_pos h2] at hmem
          subst h2
          exact List.mem_cons_of_mem _ hmem
        · simp only [eraseKey, if_neg h2, List.map_cons, List.mem_cons] at hmem
          rcases hmem with h3 | h3
          · exact h3 ▸ List.mem_cons_self _ _
          · exact List.mem_cons_of_mem _ (ih2 h3)

theorem lookup_eraseKey_self_of_nodup {c : String} :
    ∀ map : PendingMap, keysNodup map → List.lookup c (eraseKey c map) = none := by
  intro map
  induction map with
  | nil => intro _; rfl
  | cons e rest ih =>
    obtain ⟨a, v⟩ := e
    intro h
    rw [keysNodup, List.map_cons, List.nodup_cons] at h
    by_cases hac : a = c
    · subst hac
      simp only [eraseKey, if_pos rfl]
      exact lookup_eq_none_of_not_mem_keys rest h.1
    · have hca : ¬ c = a := fun hh => hac hh.symm
      have hc : (c == a) = false := by simp [hca]
      simp [eraseKey, hac, List.lookup, hc, ih h.2]

theorem lookup_eraseKey_some {c k : String} {v : DStatus}
    (map : PendingMap) (hnd : keysNodup map)
    (h : List.lookup c (eraseKey k map) = some v) :
    List.lookup c map = some v := by
  by_cases hck : c = k
  · subst hck
    rw [lookup_eraseKey_self_of_nodup map hnd] at h
    cases h
  · rwa [lookup_eraseKey_ne hck] at h

theorem acc_resolve_mem :
    ∀ (msgs : List SqsMessage) (map : PendingMap)
      (acc : List (String × SqsMessage × Option DStatus)) (c b : String)
      (raw : SqsMessage),
      (∀ m ∈ msgs, isQueueStopMessage m = false ∧ m.callIdAttr ≠ none) →
      (c, raw, some DStatus.waiting) ∈ acc → raw.body = some b →
      CollectorEvent.resolveSlot c b raw ∈ (collectLoop map msgs acc).events := by
  intro msgs
  induction msgs with
  | nil =>
    intro map acc c b raw _ hmem hbody
    exact resolveSlot_mem_resolvePromises.mpr ⟨hmem, hbody⟩
  | cons m rest ih =>
    intro map acc c b raw hwf hmem hbody
    have hstop : isQueueStopMessage m = false := (hwf m (List.mem_cons_self _ _)).1
    have hcid : m.callIdAttr ≠ none := (hwf m (List.mem_cons_self _ _)).2
    match hca : m.callIdAttr with
    | none => exact absurd hca hcid
    | some cid =>
      simp only [collectLoop, hstop, Bool.false_eq_true, if_false, hca]
      exact ih _ _ c b raw (fun m2 h2 => hwf m2 (List.mem_cons_of_mem _ h2))
        (List.mem_append_left _ hmem) hbody

theorem acc_drop_mem :
    ∀ (msgs : List SqsMessage) (map : PendingMap)
      (acc : List (String × SqsMessage × Option DStatus)) (c : String)
      (raw : SqsMessage),
      (∀ m ∈ msgs, isQueueStopMessage m = false ∧ m.callIdAttr ≠ none) →
      (c, raw, (none : Option DStatus)) ∈ acc → raw.body ≠ none →
      CollectorEvent.dropUnknown c ∈ (collectLoop map msgs acc).events := by
  intro msgs
  induction msgs with
  | nil =>
    intro map acc c raw _ hmem hbody
    exact dropUnknown_mem_resolvePromises.mpr ⟨raw, hmem, hbody⟩
  | cons m rest ih =>
    intro map acc c raw hwf hmem hbody
    have hstop : isQueueStopMessage m = false := (hwf m (List.mem_cons_self _ _)).1
    have hcid : m.callIdAttr ≠ none := (hwf m (List.mem_cons_self _ _)).2
    match hca : m.callIdAttr with
    | none => exact absurd hca hcid
    | some cid =>
      simp only [collectLoop, hstop, Bool.false_eq_true, if_false, hca]
      exact ih _ _ c raw (fun m2 h2 => hwf m2 (List.mem_cons_of_mem _ h2))
        (List.mem_append_left _ hmem) hbody

theorem collectLoop_resolve_sound :
    ∀ (msgs : List SqsMessage) (map : PendingMap)
      (acc : List (String × SqsMessage × Option DStatus)) (c b : String)
      (raw : SqsMessage),
      keysNodup map →
      CollectorEvent.resolveSlot c b raw ∈ (collectLoop map msgs acc).events →
      ((c, raw, some DStatus.waiting) ∈ acc ∧ raw.body = some b) ∨
        (raw ∈ msgs ∧ raw.callIdAttr = some c ∧ raw.body = some b ∧
          List.lookup c map = some DStatus.waiting) := by
  intro msgs
  induction msgs with
  | nil =>
    intro map acc c b raw _ h
    exact Or.inl (resolveSlot_mem_resolvePromises.mp h)
  | cons m rest ih =>
    intro map acc c b raw hnd h
    by_cases hstop : isQueueStopMessage m
    · simp only [collectLoop, hstop, if_true] at h
      exact absurd h resolveSlot_not_mem_rejectEvents
    · rw [Bool.not_eq_true] at hstop
      match hca : m.callIdAttr with
      | none =>
        simp only [collectLoop, hstop, Bool.false_eq_true, if_false, hca] at h
        cases h
      | some cid =>
        simp only [collectLoop, hstop, Bool.false_eq_true, if_false, hca] at h
        rcases ih _ _ c b raw (keysNodup_eraseKey map hnd) h with
          ⟨hmem, hbody⟩ | ⟨hm, hattr, hbody, hlk⟩
        · rcases List.mem_append.mp hmem with hacc | hnew
          · exact Or.inl ⟨hacc, hbody⟩
          · simp only [List.mem_singleton] at hnew
            injection hnew with hc hnew
            injection hnew with hm hd
            subst hc
            subst hm
            exact Or.inr ⟨List.mem_cons_self _ _, hca, hbody, hd.symm⟩
        · exact Or.inr ⟨List.mem_cons_of_mem _ hm, hattr, hbody,
            lookup_eraseKey_some map hnd hlk⟩

theorem collectLoop_complete :
    ∀ (msgs : List SqsMessage) (map : PendingMap)
      (acc : List (String × SqsMessage × Option DStatus)) (c : String),
      (∀ m ∈ msgs, isQueueStopMessage m = false ∧ m.callIdAttr ≠ none ∧ m.body ≠ none) →
      List.lookup c map = some DStatus.waiting →
      (∃ m ∈ msgs, m.callIdAttr = some c) →
      ∃ b raw, CollectorEvent.resolveSlot c b raw ∈ (collectLoop map msgs acc).events ∧
        raw.callIdAttr = some c ∧ raw.body = some b := by
  intro msgs
  induction msgs with
  | nil =>
    intro map acc c _ _ hex
    obtain ⟨m, hm, _⟩ := hex
    cases hm
  | cons m rest ih =>
    intro map acc c hwf hlk hex
    obtain ⟨hstop, hcid, hbody⟩ := hwf m (List.mem_cons_self _ _)
    match hca : m.callIdAttr with
    | none => exact absurd hca hcid
    | some cid =>
      simp only [collectLoop, hstop, Bool.false_eq_true, if_false, hca]
      by_cases hc : cid = c
      · subst hc
        match hbm : m.body with
        | none => exact absurd hbm hbody
        | some bm =>
          refine ⟨bm, m, ?_, hca, hbm⟩
          apply acc_resolve_mem rest _ _ cid bm m
            (fun m2 h2 => ⟨(hwf m2 (List.mem_cons_of_mem _ h2)).1,
              (hwf m2 (List.mem_cons_of_mem _ h2)).2.1⟩)
            (List.mem_append_right _ (by rw [hlk]; exact List.mem_singleton.mpr rfl)) hbm
      · have hlk2 : List.lookup c (eraseKey cid map) = some DStatus.waiting := by
          rw [lookup_eraseKey_ne (fun hh => hc hh.symm)]
          exact hlk
        obtain ⟨m0, hm0, hm0attr⟩ := hex
        have hm0rest : m0 ∈ rest := by
          rcases List.mem_cons.mp hm0 with h0 | h0
          · subst h0
            rw [hca] at hm0attr
            injection hm0attr with hh
            exact absurd hh hc
          · exact h0
        exact ih _ _ c (fun m2 h2 => hwf m2 (List.mem_cons_of_mem _ h2)) hlk2
          ⟨m0, hm0rest, hm0attr⟩

theorem collectLoop_unknown :
    ∀ (msgs : List SqsMessage) (map : PendingMap)
      (acc : List (String × SqsMessage × Option DStatus)) (c : String),
      (∀ m ∈ msgs, isQueueStopMessage m = false ∧ m.callIdAttr ≠ none ∧ m.body ≠ none) →
      List.lookup c map = none →
      (∃ m ∈ msgs, m.callIdAttr = some c) →
      CollectorEvent.dropUnknown c ∈ (collectLoop map msgs acc).events := by
  intro msgs
  induction msgs with
  | nil =>
    intro map acc c _ _ hex
    obtain ⟨m, hm, _⟩ := hex
    cases hm
  | cons m rest ih =>
    intro map acc c hwf hlk hex
    obtain ⟨hstop, hcid, hbody⟩ := hwf m (List.mem_cons_self _ _)
    match hca : m.callIdAttr with
    | none => exact absurd hca hcid
    | some cid =>
      simp only [collectLoop, hstop, Bool.false_eq_true, if_false, hca]
      by_cases hc : cid = c
      · subst hc
        apply acc_drop_mem rest _ _ cid m
          (fun m2 h2 => ⟨(hwf m2 (List.mem_cons_of_mem _ h2)).1,
            (hwf m2 (List.mem_cons_of_mem _ h2)).2.1⟩)
          (List.mem_append_right _ (by rw [hlk]; exact List.mem_singleton.mpr rfl)) hbody
      · have hlk2 : List.lookup c (eraseKey cid map) = none :=
          lookup_eraseKey_none map hlk
        obtain ⟨m0, hm0, hm0attr⟩ := hex
        have hm0rest : m0 ∈ rest := by
          rcases List.mem_cons.mp hm0 with h0 | h0
          · subst h0
            rw [hca] at hm0attr
            injection hm0attr with hh
            exact absurd hh hc
          · exact h0
        exact ih _ _ c (fun m2 h2 => hwf m2 (List.mem_cons_of_mem _ h2)) hlk2
          ⟨m0, hm0rest, hm0attr⟩

/-- C4: with pending slot A and a received batch carrying the reply for A
followed by the stop sentinel, the collector deletes A from the map and
collects its reply, but the sentinel return skips the setTimeout that
schedules resolvePromises and rejectAll no longer finds A in the map, so
the batch produces no settlement event at all for A: slot A is left
neither resolved nor rejected, contradicting the claim that every
outstanding slot is settled on a stop sentinel. -/
theorem stopSentinelDropsCollectedSlot :
    processBatch [("A", DStatus.waiting)]
        [⟨"m1", some "A", none, some "retA"⟩, ⟨"m2", none, some "stop", some "empty"⟩]
      = ⟨[], [], true⟩ ∧
    processBatch [("A", DStatus.waiting)] [⟨"m2", none, some "stop", some "empty"⟩]
      = ⟨[("A", DStatus.settled)],
         [.rejectSlot "A" "Call to cloud function cancelled in cleanup"], true⟩ := by
  decide

theorem collectLoop_exited_settled :
    ∀ (msgs : List SqsMessage) (map : PendingMap)
      (acc : List (String × SqsMessage × Option DStatus)),
      (collectLoop map msgs acc).exited = true →
      ∀ e ∈ (collectLoop map msgs acc).newMap, e.2 = DStatus.settled := by
  intro msgs
  induction msgs with
  | nil =>
    intro map acc h
    cases h
  | cons m rest ih =>
    intro map acc h e he
    by_cases hstop : isQueueStopMessage m
    · simp only [collectLoop, hstop, if_true] at he
      simp only [settleAll, List.mem_map] at he
      obtain ⟨e0, _, he0⟩ := he
      rw [← he0]
    · rw [Bool.not_eq_true] at hstop
      match hca : m.callIdAttr with
      | none =>
        simp only [collectLoop, hstop, Bool.false_eq_true, if_false, hca] at h
      | some cid =>
        simp only [collectLoop, hstop, Bool.false_eq_true, if_false, hca] at h he
        exact ih _ _ h e he

theorem enqueue_handle (s : SysState) (c : String) :
    (enqueueCallRequest s c).handle = true := by
  rw [enqueueCallRequest, startIfNeeded]
  by_cases hh : s.handle
  · simp [hh]
  · simp only [Bool.not_eq_true] at hh
    simp [hh]

theorem step_preserves_inv {s s2 : SysState}
    (ih : s.collectors = (if s.handle then 1 else 0) ∧
      (s.handle = false → ∀ e ∈ s.pendingMap, e.2 = DStatus.settled))
    (hstep : SysStep s s2) :
    s2.collectors = (if s2.handle then 1 else 0) ∧
      (s2.handle = false → ∀ e ∈ s2.pendingMap, e.2 = DStatus.settled) := by
  cases hstep with
  | enqueue c =>
    by_cases hh : s.handle
    · simp [enqueueCallRequest, startIfNeeded, hh, ih.1]
    · rw [Bool.not_eq_true] at hh
      have hne : (s.pendingMap ++ [(c, DStatus.waiting)]).isEmpty = false := by
        simp
      have hcol : s.collectors = 0 := by simpa [hh] using ih.1
      simp [enqueueCallRequest, startIfNeeded, hh, hne, hcol]
  | deliver msgs hh =>
    have hcol : s.collectors = 1 := by simpa [hh] using ih.1
    by_cases hex : (processBatch s.pendingMap msgs).exited
    · constructor
      · simp [collectorTurn, hex, hcol]
      · intro _ e he
        simp only [collectorTurn, hex, if_true] at he
        exact collectLoop_exited_settled msgs s.pendingMap [] hex e he
    · by_cases hemp : (processBatch s.pendingMap msgs).newMap.isEmpty
      · constructor
        · simp [collectorTurn, hex, hemp, hcol]
        · intro _ e he
          simp only [collectorTurn, hex, Bool.false_eq_true, if_false, hemp,
            if_true] at he
          rw [List.isEmpty_iff] at hemp
          rw [hemp] at he
          cases he
      · constructor
        · simp [collectorTurn, hex, hemp, hh, hcol]
        · intro hfalse
          simp only [collectorTurn, hex, Bool.false_eq_true, if_false, hemp] at hfalse
          rw [hh] at hfalse
          cases hfalse
  | restart =>
    by_cases hcond : (!s.pendingMap.isEmpty && !s.handle) = true
    · have hh : s.handle = false := by
        rcases Bool.and_eq_true .. |>.mp hcond with ⟨_, h2⟩
        simpa using h2
      have hcol : s.collectors = 0 := by simpa [hh] using ih.1
      simp [startIfNeeded, hcond, hcol]
    · constructor
      · simpa [startIfNeeded, hcond] using ih.1
      · intro hfalse
        simp only [startIfNeeded, hcond, if_false] at hfalse ⊢
        exact ih.2 hfalse

theorem reachable_inv :
    ∀ s : SysState, Reachable s →
      s.collectors = (if s.handle then 1 else 0) ∧
      (s.handle = false → ∀ e ∈ s.pendingMap, e.2 = DStatus.settled) := by
  intro s hr
  induction hr with
  | init => exact ⟨rfl, fun _ e he => absurd he (List.not_mem_nil e)⟩
  | step hprev hstep ih => exact step_preserves_inv ih hstep

/-- C3 counterexample: the claimed iff between an absent collector and an
empty pending map fails on the code: after a stop sentinel the rejected
slots stay in the callResultPromises map (rejectAll never removes them),
so the reachable state afterStopState has zero collector tasks and a
non-empty pending map. -/
theorem collectorIffCounterexample :
    Reachable afterStopState ∧
    afterStopState.collectors = 0 ∧ afterStopState.pendingMap ≠ [] := by
  refine ⟨?_, by decide, by decide⟩
  have h1 : Reachable (enqueueCallRequest initState "a") :=
    Reachable.step Reachable.init (SysStep.enqueue initState "a")
  exact Reachable.step h1
    (SysStep.deliver (enqueueCallRequest initState "a") [stopMessage]
      (enqueue_handle initState "a"))

/-- C3 amended: in every reachable state the number of active collector
tasks is 0 or 1, and it is 1 exactly when the collector handle is set; a
caller that finds the handle absent starts a collector (enqueueCallRequest
always leaves the handle set), and a collector that finds the map empty
clears the handle (collectorTurn); but when no collector runs the pending
map need not be empty - it can only hold already-settled slots, because a
stop sentinel rejects the remaining slots without removing them from the
map. -/
theorem collectorInvariant (s : SysState) (hr : Reachable s) :
    (s.collectors = 0 ∨ s.collectors = 1) ∧
    (s.collectors = 1 ↔ s.handle = true) ∧
    (s.collectors = 0 → ∀ e ∈ s.pendingMap, e.2 = DStatus.settled) := by
  obtain ⟨h1, h2⟩ := reachable_inv s hr
  by_cases hh : s.handle
  · rw [hh] at h1
    simp only [if_true] at h1
    exact ⟨Or.inr h1, by simp [h1, hh], fun h0 => by rw [h1] at h0; cases h0⟩
  · simp only [Bool.not_eq_true] at hh
    rw [hh] at h1
    simp only [Bool.false_eq_true, if_false] at h1
    exact ⟨Or.inl h1, by simp [h1, hh], fun _ => h2 hh⟩

/-- Witness for C3 at the concrete reachable state afterStopState. -/
theorem collectorInvariantWitness :
    (afterStopState.collectors = 0 ∨ afterStopState.collectors = 1) ∧
    (afterStopState.collectors = 1 ↔ afterStopState.handle = true) ∧
    (afterStopState.collectors = 0 →
      ∀ e ∈ afterStopState.pendingMap, e.2 = DStatus.settled) :=
  collectorInvariant afterStopState
    (Reachable.step
      (Reachable.step Reachable.init (SysStep.enqueue initState "a"))
      (SysStep.deliver (enqueueCallRequest initState "a") [stopMessage]
        (enqueue_handle initState "a")))

/-- C1: for a pending map with distinct CallIds and a received batch of
well-formed reply messages, the collector resolves each slot with exactly
the body of the message whose CallId attribute equals that slot's CallId
(soundness: every resolution event names a message of the batch carrying
that CallId and uses that message's body and envelope, and the CallId was
a waiting slot of the map); every waiting slot that has a reply in the
batch is resolved from a message carrying its CallId (completeness); and
a reply whose CallId matches no registered slot produces only the logged
drop and never a resolution, leaving every other slot's events as the
other two parts describe them. -/
theorem queueCorrelation (map : PendingMap) (msgs : List SqsMessage)
    (hnd : keysNodup map) (hwf : batchWellFormed msgs) :
    (∀ c b raw, CollectorEvent.resolveSlot c b raw ∈ (processBatch map msgs).events →
        raw ∈ msgs ∧ raw.callIdAttr = some c ∧ raw.body = some b ∧
          List.lookup c map = some DStatus.waiting) ∧
    (∀ c, List.lookup c map = some DStatus.waiting →
        (∃ m ∈ msgs, m.callIdAttr = some c) →
        ∃ b raw, CollectorEvent.resolveSlot c b raw ∈ (processBatch map msgs).events ∧
          raw.callIdAttr = some c ∧ raw.body = some b) ∧
    (∀ c, List.lookup c map = none → (∃ m ∈ msgs, m.callIdAttr = some c) →
        CollectorEvent.dropUnknown c ∈ (processBatch map msgs).events ∧
          ∀ b raw, CollectorEvent.resolveSlot c b raw ∉ (processBatch map msgs).events) := by
  refine ⟨?_, ?_, ?_⟩
  · intro c b raw h
    rcases collectLoop_resolve_sound msgs map [] c b raw hnd h with ⟨hmem, _⟩ | h2
    · cases hmem
    · exact h2
  · intro c hlk hex
    exact collectLoop_complete msgs map [] c hwf hlk hex
  · intro c hlk hex
    refine ⟨collectLoop_unknown msgs map [] c hwf hlk hex, ?_⟩
    intro b raw h
    rcases collectLoop_resolve_sound msgs map [] c b raw hnd h with ⟨hmem, _⟩ | ⟨_, _, _, hlk2⟩
    · cases hmem
    · rw [hlk] at hlk2
      cases hlk2

/-- C5: invoke returns a Response record rather than throwing for
call-level errors (the mapping below is total); a FunctionReturn with
type error surfaces as the error field, an Error rebuilt from the name,
message and stack fields of the returned value; any other type yields the
value field with no error; and the rawResponse field always carries the
underlying SDK envelope - the SQS message in queue mode and the
lambda.invoke envelope in direct mode, where a set FunctionError instead
wraps the raw payload as the transport error. -/
theorem invokeResultMapping :
    (∀ (returned : FunctionReturn) (message : SqsMessage),
      (invokeResultQueue returned message).rawResponse = RawResponse.sqsMessage message ∧
      (returned.type = "error" →
        (invokeResultQueue returned message).error =
          some ⟨jsField returned.value "name", jsField returned.value "message",
            jsField returned.value "stack"⟩) ∧
      (returned.type ≠ "error" →
        (invokeResultQueue returned message).error = none ∧
        (invokeResultQueue returned message).value = returned.value)) ∧
    (∀ (raw : LambdaInvokeResponse) (parse : String → FunctionReturn),
      (invokeResultDirect raw parse).rawResponse = RawResponse.lambdaResponse raw ∧
      (truthyOptStr raw.functionError = false → ∀ p, raw.payload = some p → ¬ p = "" →
        ((parse p).type = "error" →
          (invokeResultDirect raw parse).error =
            some ⟨jsField (parse p).value "name", jsField (parse p).value "message",
              jsField (parse p).value "stack"⟩) ∧
        ((parse p).type ≠ "error" →
          (invokeResultDirect raw parse).error = none ∧
          (invokeResultDirect raw parse).value = (parse p).value)) ∧
      (truthyOptStr raw.functionError = true →
        (invokeResultDirect raw parse).error =
          some ⟨.string "Error", .string (raw.payload.getD ""), .undefined⟩)) := by
  constructor
  · intro returned message
    refine ⟨rfl, ?_, ?_⟩
    · intro h
      have hb : (returned.type == "error") = true := by simp [h]
      simp [invokeResultQueue, applyReturnMapping, hb]
    · intro h
      have hb : (returned.type == "error") = false := by simp [h]
      simp [invokeResultQueue, applyReturnMapping, hb]
  · intro raw parse
    refine ⟨rfl, ?_, ?_⟩
    · intro hfe p hp hpne
      have hpb : (p == "") = false := by simp [hpne]
      constructor
      · intro h
        have hb : ((parse p).type == "error") = true := by simp [h]
        simp [invokeResultDirect, applyReturnMapping, hfe, hp, hpb, hb]
      · intro h
        have hb : ((parse p).type == "error") = false := by simp [h]
        simp [invokeResultDirect, applyReturnMapping, hfe, hp, hpb, hb]
    · intro hfe
      simp [invokeResultDirect, applyReturnMapping, hfe]

/-- Witness for C5 at concrete error and value returns in queue mode and
a concrete FunctionError envelope in direct mode. -/
theorem invokeResultMappingWitness :
    (invokeResultQueue retErrSample msgSample).rawResponse
        = RawResponse.sqsMessage msgSample ∧
    (invokeResultQueue retErrSample msgSample).error =
      some ⟨jsField retErrSample.value "name", jsField retErrSample.value "message",
        jsField retErrSample.value "stack"⟩ ∧
    ((invokeResultQueue retValSample msgSample).error = none ∧
      (invokeResultQueue retValSample msgSample).value = retValSample.value) ∧
    (invokeResultDirect lambdaErrSample (fun _ => retValSample)).error =
      some ⟨.string "Error", .string (lambdaErrSample.payload.getD ""), .undefined⟩ :=
  ⟨(invokeResultMapping.1 retErrSample msgSample).1,
   (invokeResultMapping.1 retErrSample msgSample).2.1 rfl,
   (invokeResultMapping.1 retValSample msgSample).2.2 (by decide),
   (invokeResultMapping.2 lambdaErrSample (fun _ => retValSample)).2.2 (by decide)⟩

/-- Witness for C1 at a concrete two-slot map and a batch containing both
replies out of order plus a reply with an unknown CallId. -/
theorem queueCorrelationWitness :
    keysNodup sampleMap ∧ batchWellFormed sampleBatch ∧
    ((∀ c b raw, CollectorEvent.resolveSlot c b raw ∈
        (processBatch sampleMap sampleBatch).events →
        raw ∈ sampleBatch ∧ raw.callIdAttr = some c ∧ raw.body = some b ∧
          List.lookup c sampleMap = some DStatus.waiting) ∧
      (∀ c, List.lookup c sampleMap = some DStatus.waiting →
        (∃ m ∈ sampleBatch, m.callIdAttr = some c) →
        ∃ b raw, CollectorEvent.resolveSlot c b raw ∈
          (processBatch sampleMap sampleBatch).events ∧
          raw.callIdAttr = some c ∧ raw.body = some b) ∧
      (∀ c, List.lookup c sampleMap = none →
        (∃ m ∈ sampleBatch, m.callIdAttr = some c) →
        CollectorEvent.dropUnknown c ∈ (processBatch sampleMap sampleBatch).events ∧
          ∀ b raw, CollectorEvent.resolveSlot c b raw ∉
            (processBatch sampleMap sampleBatch).events)) :=
  ⟨by decide, by decide, queueCorrelation sampleMap sampleBatch (by decide) (by decide)⟩

theorem pollLoop_ok {T : Type} (truthyT : T → Bool) (d : String) (attempt : Nat → T) :
    ∀ (r i : Nat) (t : T), (pollLoop truthyT d attempt i r).result = .ok t →
      ∃ k, k < r ∧ t = attempt (i + k) ∧ truthyT t = true ∧
        (∀ j, j < k → truthyT (attempt (i + j)) = false) ∧
        (pollLoop truthyT d attempt i r).attemptsMade = k + 1 ∧
        (pollLoop truthyT d attempt i r).sleepsMs = List.replicate k 1000 := by
  intro r
  induction r with
  | zero =>
    intro i t h
    cases h
  | succ n ih =>
    intro i t h
    by_cases ht : truthyT (attempt i)
    · simp only [pollLoop, ht, if_true] at h ⊢
      injection h with h
      subst h
      exact ⟨0, Nat.succ_pos n, by rw [Nat.add_zero], ht,
        fun j hj => absurd hj (Nat.not_lt_zero j), rfl, rfl⟩
    · rw [Bool.not_eq_true] at ht
      simp only [pollLoop, ht, Bool.false_eq_true, if_false] at h ⊢
      obtain ⟨k, hk, hattr, htr, hprev, hcnt, hsl⟩ := ih (i + 1) t h
      refine ⟨k + 1, Nat.succ_lt_succ hk, ?_, htr, ?_, ?_, ?_⟩
      · rw [hattr]
        have heq : i + 1 + k = i + (k + 1) := by omega
        rw [heq]
      · intro j hj
        match j with
        | 0 => rw [Nat.add_zero]; exact ht
        | j2 + 1 =>
          have hp := hprev j2 (Nat.lt_of_succ_lt_succ hj)
          have heq : i + 1 + j2 = i + (j2 + 1) := by omega
          rw [heq] at hp
          exact hp
      · rw [hcnt]
      · rw [hsl, List.replicate]

theorem pollLoop_error {T : Type} (truthyT : T → Bool) (d : String) (attempt : Nat → T) :
    ∀ (r i : Nat) (e : PollError), (pollLoop truthyT d attempt i r).result = .error e →
      e = .provisioningTimeout d ∧
      (∀ j, j < r → truthyT (attempt (i + j)) = false) ∧
      (pollLoop truthyT d attempt i r).attemptsMade = r ∧
      (pollLoop truthyT d attempt i r).sleepsMs = List.replicate r 1000 := by
  intro r
  induction r with
  | zero =>
    intro i e h
    injection h with h
    exact ⟨h.symm, fun j hj => absurd hj (Nat.not_lt_zero j), rfl, rfl⟩
  | succ n ih =>
    intro i e h
    by_cases ht : truthyT (attempt i)
    · simp only [pollLoop, ht, if_true] at h
      cases h
    · rw [Bool.not_eq_true] at ht
      simp only [pollLoop, ht, Bool.false_eq_true, if_false] at h ⊢
      obtain ⟨he, hall, hcnt, hsl⟩ := ih (i + 1) e h
      refine ⟨he, ?_, by rw [hcnt], by rw [hsl, List.replicate]⟩
      intro j hj
      match j with
      | 0 => rw [Nat.add_zero]; exact ht
      | j2 + 1 =>
        have hp := hall j2 (Nat.lt_of_succ_lt_succ hj)
        have heq : i + 1 + j2 = i + (j2 + 1) := by omega
        rw [heq] at hp
        exact hp

theorem pollLoop_exhaust {T : Type} (truthyT : T → Bool) (d : String) (attempt : Nat → T) :
    ∀ (r i : Nat), (∀ j, j < r → truthyT (attempt (i + j)) = false) →
      (pollLoop truthyT d attempt i r).result = .error (.provisioningTimeout d) := by
  intro r
  induction r with
  | zero => intro i _; rfl
  | succ n ih =>
    intro i hall
    have ht : truthyT (attempt i) = false := by
      have := hall 0 (Nat.succ_pos n)
      rwa [Nat.add_zero] at this
    simp only [pollLoop, ht, Bool.false_eq_true, if_false]
    apply ih
    intro j hj
    have hp := hall (j + 1) (Nat.succ_lt_succ hj)
    have heq : i + (j + 1) = i + 1 + j := by omega
    rw [heq] at hp
    exact hp

/-- C8: the readiness poll sleeps the 2000ms settle delay first, makes at
most n attempts (the call sites pass n = 100) with 1000ms between
attempts, treats an untruthy attempt result (which is what quietly turns
a provider error into) as retryable, returns the first truthy result, and
on exhaustion of all n attempts surfaces the ProvisioningTimeout error -
so every run ends with either a result or that error after a bounded
number of attempts. -/
theorem pollBoundedTermination {T : Type} (truthyT : T → Bool) (n : Nat)
    (d : String) (attempt : Nat → T) :
    (pollAWSRequest truthyT n d attempt).sleepsMs.head? = some 2000 ∧
    (pollAWSRequest truthyT n d attempt).attemptsMade ≤ n ∧
    (∀ t, (pollAWSRequest truthyT n d attempt).result = .ok t →
      ∃ k, k < n ∧ t = attempt k ∧ truthyT t = true ∧
        (∀ j, j < k → truthyT (attempt j) = false) ∧
        (pollAWSRequest truthyT n d attempt).attemptsMade = k + 1 ∧
        (pollAWSRequest truthyT n d attempt).sleepsMs
          = 2000 :: List.replicate k 1000) ∧
    (∀ e, (pollAWSRequest truthyT n d attempt).result = .error e →
      e = .provisioningTimeout d ∧
        (∀ j, j < n → truthyT (attempt j) = false) ∧
        (pollAWSRequest truthyT n d attempt).attemptsMade = n ∧
        (pollAWSRequest truthyT n d attempt).sleepsMs
          = 2000 :: List.replicate n 1000) ∧
    ((∀ j, j < n → truthyT (attempt j) = false) →
      (pollAWSRequest truthyT n d attempt).result
        = .error (.provisioningTimeout d)) := by
  have hres : (pollAWSRequest truthyT n d attempt).result
      = (pollLoop truthyT d attempt 0 n).result := rfl
  have hcnt : (pollAWSRequest truthyT n d attempt).attemptsMade
      = (pollLoop truthyT d attempt 0 n).attemptsMade := rfl
  have hsl : (pollAWSRequest truthyT n d attempt).sleepsMs
      = 2000 :: (pollLoop truthyT d attempt 0 n).sleepsMs := rfl
  refine ⟨by rw [hsl]; rfl, ?_, ?_, ?_, ?_⟩
  · rw [hcnt]
    match hr : (pollLoop truthyT d attempt 0 n).result with
    | .ok t =>
      obtain ⟨k, hk, _, _, _, hc, _⟩ := pollLoop_ok truthyT d attempt n 0 t hr
      rw [hc]
      omega
    | .error e =>
      obtain ⟨_, _, hc, _⟩ := pollLoop_error truthyT d attempt n 0 e hr
      rw [hc]
  · intro t h
    rw [hres] at h
    obtain ⟨k, hk, hattr, htr, hprev, hc, hs⟩ := pollLoop_ok truthyT d attempt n 0 t h
    rw [Nat.zero_add] at hattr
    refine ⟨k, hk, hattr, htr, ?_, by rw [hcnt, hc], by rw [hsl, hs]⟩
    intro j hj
    have hp := hprev j hj
    rwa [Nat.zero_add] at hp
  · intro e h
    rw [hres] at h
    obtain ⟨he, hall, hc, hs⟩ := pollLoop_error truthyT d attempt n 0 e h
    refine ⟨he, ?_, by rw [hcnt, hc], by rw [hsl, hs]⟩
    intro j hj
    have hp := hall j hj
    rwa [Nat.zero_add] at hp
  · intro hall
    rw [hres]
    apply pollLoop_exhaust
    intro j hj
    rw [Nat.zero_add]
    exact hall j hj

/-- Witness for C8 at n = 100 with an attempt function whose first truthy
result occurs on the third attempt. -/
theorem pollBoundedTerminationWitness :
    (pollAWSRequest truthy 100 "creating function"
        (fun j => if j == 2 then JsValue.object [] else JsValue.undefined)).sleepsMs.head?
      = some 2000 ∧
    (pollAWSRequest truthy 100 "creating function"
        (fun j => if j == 2 then JsValue.object [] else JsValue.undefined)).attemptsMade
      ≤ 100 ∧
    (∀ t, (pollAWSRequest truthy 100 "creating function"
        (fun j => if j == 2 then JsValue.object [] else JsValue.undefined)).result
          = .ok t →
      ∃ k, k < 100 ∧
        t = (fun j : Nat => if j == 2 then JsValue.object [] else JsValue.undefined) k ∧
        truthy t = true ∧
        (∀ j, j < k →
          truthy ((fun j : Nat => if j == 2 then JsValue.object [] else JsValue.undefined) j)
            = false) ∧
        (pollAWSRequest truthy 100 "creating function"
            (fun j => if j == 2 then JsValue.object [] else JsValue.undefined)).attemptsMade
          = k + 1 ∧
        (pollAWSRequest truthy 100 "creating function"
            (fun j => if j == 2 then JsValue.object [] else JsValue.undefined)).sleepsMs
          = 2000 :: List.replicate k 1000) ∧
    (∀ e, (pollAWSRequest truthy 100 "creating function"
        (fun j => if j == 2 then JsValue.object [] else JsValue.undefined)).result
          = .error e →
      e = .provisioningTimeout "creating function" ∧
        (∀ j, j < 100 →
          truthy ((fun j : Nat => if j == 2 then JsValue.object [] else JsValue.undefined) j)
            = false) ∧
        (pollAWSRequest truthy 100 "creating function"
            (fun j => if j == 2 then JsValue.object [] else JsValue.undefined)).attemptsMade
          = 100 ∧
        (pollAWSRequest truthy 100 "creating function"
            (fun j => if j == 2 then JsValue.object [] else JsValue.undefined)).sleepsMs
          = 2000 :: List.replicate 100 1000) ∧
    ((∀ j, j < 100 →
        truthy ((fun j : Nat => if j == 2 then JsValue.object [] else JsValue.undefined) j)
          = false) →
      (pollAWSRequest truthy 100 "creating function"
          (fun j => if j == 2 then JsValue.object [] else JsValue.undefined)).result
        = .error (.provisioningTimeout "creating function")) :=
  pollBoundedTermination truthy 100 "creating function"
    (fun j => if j == 2 then JsValue.object [] else JsValue.undefined)

/-- C10: createSNSNotifier can never throw the post-poll error, because
pollAWSRequest either returns a truthy result (it returns an attempt value
only after that value passed the truthiness test) or throws after
exhausting its attempts; so createSNSNotifier either returns the topic
ARN or propagates the polling failure. -/
theorem notifierFailureBranchUnreachable (env : NotifierEnv) :
    createSNSNotifier env ≠ .error .roleInitFailed ∧
    (createSNSNotifier env = .ok env.topicArn ∨
      createSNSNotifier env = .error (.pollFailed (.provisioningTimeout
        "role for SNS invocation of lambda function failure feedback"))) := by
  match hres : (pollAWSRequest truthy 100
      "role for SNS invocation of lambda function failure feedback"
      env.attempts).result with
  | .ok v =>
    obtain ⟨k, _, _, htr, _⟩ :=
      pollLoop_ok truthy "role for SNS invocation of lambda function failure feedback"
        env.attempts 100 0 v hres
    have hval : createSNSNotifier env = .ok env.topicArn := by
      simp [createSNSNotifier, hres, htr]
    rw [hval]
    refine ⟨?_, Or.inl rfl⟩
    intro h
    cases h
  | .error e =>
    obtain ⟨he, _⟩ :=
      pollLoop_error truthy "role for SNS invocation of lambda function failure feedback"
        env.attempts 100 0 e hres
    have hval : createSNSNotifier env = .error (.pollFailed e) := by
      simp [createSNSNotifier, hres]
    rw [hval, he]
    refine ⟨?_, Or.inr rfl⟩
    intro h
    cases h

theorem mem_optAct {A : Type} {a : CleanupAction} {o : Option A}
    {f : A → CleanupAction} :
    a ∈ optAct o f ↔ ∃ x, o = some x ∧ a = f x := by
  cases o <;> simp [optAct]

theorem memIfNil {P : Prop} [Decidable P] {a : CleanupAction}
    {l : List CleanupAction} :
    a ∈ (if P then l else []) ↔ P ∧ a ∈ l := by
  by_cases h : P <;> simp [h]

theorem optAct_sorted {A : Type} (o : Option A) (f : A → CleanupAction) :
    StageSorted (optAct o f) := by
  cases o <;> simp [optAct, StageSorted]

theorem stage_mem_optAct {A : Type} {o : Option A} {f : A → CleanupAction} {k : Nat}
    (hf : ∀ x, stage (f x) = k) : ∀ a ∈ optAct o f, stage a = k := by
  intro a ha
  obtain ⟨x, _, rfl⟩ := mem_optAct.mp ha
  exact hf x

theorem stageSorted_append {l1 l2 : List CleanupAction} (c : Nat)
    (h1 : ∀ a ∈ l1, stage a ≤ c) (h2 : ∀ b ∈ l2, c ≤ stage b)
    (s1 : StageSorted l1) (s2 : StageSorted l2) : StageSorted (l1 ++ l2) := by
  rw [StageSorted, List.pairwise_append]
  exact ⟨s1, s2, fun a ha b hb => le_trans (h1 a ha) (h2 b hb)⟩

theorem lb_append {l1 l2 : List CleanupAction} {k : Nat}
    (h1 : ∀ a ∈ l1, k ≤ stage a) (h2 : ∀ a ∈ l2, k ≤ stage a) :
    ∀ a ∈ l1 ++ l2, k ≤ stage a := by
  intro a ha
  rcases List.mem_append.mp ha with h | h
  · exact h1 a h
  · exact h2 a h

theorem cleanup_sorted (r : AWSResources) (hc : Bool) :
    StageSorted (cleanup r hc) := by
  have e0 : ∀ a ∈ optAct r.SNSLambdaSubscriptionArn CleanupAction.unsubscribe,
      stage a = 0 := stage_mem_optAct fun _ => rfl
  have e1 : ∀ a ∈ (if hc then
        optAct r.ResponseQueueUrl CleanupAction.sendStopToResponseQueue else []),
      stage a = 1 := by
    intro a ha
    by_cases h : hc = true
    · rw [if_pos h] at ha
      exact @stage_mem_optAct String r.ResponseQueueUrl
        CleanupAction.sendStopToResponseQueue 1 (fun _ => rfl) a ha
    · rw [if_neg h] at ha
      cases ha
  have e2 : ∀ a ∈ optAct r.DeadLetterQueueUrl CleanupAction.sendStopToDLQ,
      stage a = 2 := stage_mem_optAct fun _ => rfl
  have e3 : ∀ a ∈ optAct r.FunctionName CleanupAction.deleteFunction,
      stage a = 3 := stage_mem_optAct fun _ => rfl
  have e4 : ∀ a ∈ optAct r.logGroupName CleanupAction.deleteLogGroup,
      stage a = 4 := stage_mem_optAct fun _ => rfl
  have e5 : ∀ a ∈ (if r.rolePolicy == some RoleHandling.createTemporaryRole then
        optAct r.RoleName CleanupAction.deleteExecutionRole else []),
      stage a = 5 := by
    intro a ha
    by_cases h : (r.rolePolicy == some RoleHandling.createTemporaryRole) = true
    · rw [if_pos h] at ha
      exact @stage_mem_optAct String r.RoleName
        CleanupAction.deleteExecutionRole 5 (fun _ => rfl) a ha
    · rw [if_neg h] at ha
      cases ha
  have e6 : ∀ a ∈ (if r.rolePolicy == some RoleHandling.createTemporaryRole then
        optAct r.SNSFeedbackRole CleanupAction.deleteFeedbackRole else []),
      stage a = 6 := by
    intro a ha
    by_cases h : (r.rolePolicy == some RoleHandling.createTemporaryRole) = true
    · rw [if_pos h] at ha
      exact @stage_mem_optAct String r.SNSFeedbackRole
        CleanupAction.deleteFeedbackRole 6 (fun _ => rfl) a ha
    · rw [if_neg h] at ha
      cases ha
  have e7 : ∀ a ∈ [CleanupAction.awaitCollectors], stage a = 7 := by
    intro a ha
    rw [List.mem_singleton] at ha
    rw [ha]
    rfl
  have e8 : ∀ a ∈ optAct r.RequestTopicArn CleanupAction.deleteRequestTopic,
      stage a = 8 := stage_mem_optAct fun _ => rfl
  have e9 : ∀ a ∈ optAct r.ResponseQueueUrl CleanupAction.deleteResponseQueue,
      stage a = 9 := stage_mem_optAct fun _ => rfl
  have e10 : ∀ a ∈ optAct r.DeadLetterQueueUrl CleanupAction.deleteDeadLetterQueue,
      stage a = 10 := stage_mem_optAct fun _ => rfl
  have sIf : ∀ (b : Bool) (l : List CleanupAction), StageSorted l →
      StageSorted (if b then l else []) := by
    intro b l hl
    by_cases h : b = true
    · rwa [if_pos h]
    · rw [if_neg h]
      exact List.Pairwise.nil
  have sIf2 : ∀ (b : Bool) (l : List CleanupAction), StageSorted l →
      StageSorted (if b = true then l else []) := fun b l hl => sIf b l hl
  have ge_of_eq : ∀ {l : List CleanupAction} {k k2 : Nat},
      (∀ a ∈ l, stage a = k) → k2 ≤ k → ∀ a ∈ l, k2 ≤ stage a := by
    intro l k k2 he hk a ha
    rw [he a ha]
    exact hk
  have le_of_eqS : ∀ {l : List CleanupAction} {k k2 : Nat},
      (∀ a ∈ l, stage a = k) → k ≤ k2 → ∀ a ∈ l, stage a ≤ k2 := by
    intro l k k2 he hk a ha
    rw [he a ha]
    exact hk
  have t10 := optAct_sorted r.DeadLetterQueueUrl CleanupAction.deleteDeadLetterQueue
  have t9 : StageSorted (optAct r.ResponseQueueUrl CleanupAction.deleteResponseQueue
      ++ optAct r.DeadLetterQueueUrl CleanupAction.deleteDeadLetterQueue) :=
    stageSorted_append 9 (le_of_eqS e9 (by omega)) (ge_of_eq e10 (by omega))
      (optAct_sorted _ _) t10
  have b9 : ∀ a ∈ optAct r.ResponseQueueUrl CleanupAction.deleteResponseQueue
      ++ optAct r.DeadLetterQueueUrl CleanupAction.deleteDeadLetterQueue,
      9 ≤ stage a :=
    lb_append (ge_of_eq e9 (by omega)) (ge_of_eq e10 (by omega))
  have t8 := stageSorted_append 8 (le_of_eqS e8 (by omega))
    (fun a ha => le_trans (by omega) (b9 a ha)) (optAct_sorted _ _) t9
  have b8 := lb_append (k := 8) (ge_of_eq e8 (by omega))
    (fun a ha => le_trans (by omega) (b9 a ha))
  have t7 := stageSorted_append 7 (le_of_eqS e7 (by omega))
    (fun a ha => le_trans (by omega) (b8 a ha))
    (List.pairwise_singleton _ _) t8
  have b7 := lb_append (k := 7) (ge_of_eq e7 (by omega))
    (fun a ha => le_trans (by omega) (b8 a ha))
  have t6 := stageSorted_append 6 (le_of_eqS e6 (by omega))
    (fun a ha => le_trans (by omega) (b7 a ha))
    (sIf2 (r.rolePolicy == some RoleHandling.createTemporaryRole) _
      (optAct_sorted _ _)) t7
  have b6 := lb_append (k := 6) (ge_of_eq e6 (by omega))
    (fun a ha => le_trans (by omega) (b7 a ha))
  have t5 := stageSorted_append 5 (le_of_eqS e5 (by omega))
    (fun a ha => le_trans (by omega) (b6 a ha))
    (sIf2 (r.rolePolicy == some RoleHandling.createTemporaryRole) _
      (optAct_sorted _ _)) t6
  have b5 := lb_append (k := 5) (ge_of_eq e5 (by omega))
    (fun a ha => le_trans (by omega) (b6 a ha))
  have t4 := stageSorted_append 4 (le_of_eqS e4 (by omega))
    (fun a ha => le_trans (by omega) (b5 a ha)) (optAct_sorted _ _) t5
  have b4 := lb_append (k := 4) (ge_of_eq e4 (by omega))
    (fun a ha => le_trans (by omega) (b5 a ha))
  have t3 := stageSorted_append 3 (le_of_eqS e3 (by omega))
    (fun a ha => le_trans (by omega) (b4 a ha)) (optAct_sorted _ _) t4
  have b3 := lb_append (k := 3) (ge_of_eq e3 (by omega))
    (fun a ha => le_trans (by omega) (b4 a ha))
  have t2 := stageSorted_append 2 (le_of_eqS e2 (by omega))
    (fun a ha => le_trans (by omega) (b3 a ha)) (optAct_sorted _ _) t3
  have b2 := lb_append (k := 2) (ge_of_eq e2 (by omega))
    (fun a ha => le_trans (by omega) (b3 a ha))
  have t1 := stageSorted_append 1 (le_of_eqS e1 (by omega))
    (fun a ha => le_trans (by omega) (b2 a ha))
    (sIf2 hc _ (optAct_sorted _ _)) t2
  have b1 := lb_append (k := 1) (ge_of_eq e1 (by omega))
    (fun a ha => le_trans (by omega) (b2 a ha))
  have t0 := stageSorted_append 0 (le_of_eqS e0 (by omega))
    (fun a ha => le_trans (by omega) (b1 a ha)) (optAct_sorted _ _) t1
  simpa [cleanup, cancelSends, List.append_assoc] using t0

theorem mem_cleanup_unsubscribe {r : AWSResources} {hc : Bool} {x : String} :
    CleanupAction.unsubscribe x ∈ cleanup r hc ↔
      r.SNSLambdaSubscriptionArn = some x := by
  simp [cleanup, cancelSends, List.mem_append, mem_optAct, memIfNil]

theorem mem_cleanup_sendStopResp {r : AWSResources} {hc : Bool} {x : String} :
    CleanupAction.sendStopToResponseQueue x ∈ cleanup r hc ↔
      hc = true ∧ r.ResponseQueueUrl = some x := by
  simp [cleanup, cancelSends, List.mem_append, mem_optAct, memIfNil]

theorem mem_cleanup_sendStopDLQ {r : AWSResources} {hc : Bool} {x : String} :
    CleanupAction.sendStopToDLQ x ∈ cleanup r hc ↔
      r.DeadLetterQueueUrl = some x := by
  simp [cleanup, cancelSends, List.mem_append, mem_optAct, memIfNil]

theorem mem_cleanup_deleteFunction {r : AWSResources} {hc : Bool} {x : String} :
    CleanupAction.deleteFunction x ∈ cleanup r hc ↔ r.FunctionName = some x := by
  simp [cleanup, cancelSends, List.mem_append, mem_optAct, memIfNil]

theorem mem_cleanup_deleteLogGroup {r : AWSResources} {hc : Bool} {x : String} :
    CleanupAction.deleteLogGroup x ∈ cleanup r hc ↔ r.logGroupName = some x := by
  simp [cleanup, cancelSends, List.mem_append, mem_optAct, memIfNil]

theorem mem_cleanup_deleteExecutionRole {r : AWSResources} {hc : Bool} {x : String} :
    CleanupAction.deleteExecutionRole x ∈ cleanup r hc ↔
      r.rolePolicy = some RoleHandling.createTemporaryRole ∧ r.RoleName = some x := by
  simp [cleanup, cancelSends, List.mem_append, mem_optAct, memIfNil]

theorem mem_cleanup_deleteFeedbackRole {r : AWSResources} {hc : Bool} {x : String} :
    CleanupAction.deleteFeedbackRole x ∈ cleanup r hc ↔
      r.rolePolicy = some RoleHandling.createTemporaryRole ∧
        r.SNSFeedbackRole = some x := by
  simp [cleanup, cancelSends, List.mem_append, mem_optAct, memIfNil]

theorem mem_cleanup_await {r : AWSResources} {hc : Bool} :
    CleanupAction.awaitCollectors ∈ cleanup r hc := by
  simp [cleanup, cancelSends, List.mem_append]

theorem mem_cleanup_deleteRequestTopic {r : AWSResources} {hc : Bool} {x : String} :
    CleanupAction.deleteRequestTopic x ∈ cleanup r hc ↔
      r.RequestTopicArn = some x := by
  simp [cleanup, cancelSends, List.mem_append, mem_optAct, memIfNil]

theorem mem_cleanup_deleteResponseQueue {r : AWSResources} {hc : Bool} {x : String} :
    CleanupAction.deleteResponseQueue x ∈ cleanup r hc ↔
      r.ResponseQueueUrl = some x := by
  simp [cleanup, cancelSends, List.mem_append, mem_optAct, memIfNil]

theorem mem_cleanup_deleteDeadLetterQueue {r : AWSResources} {hc : Bool} {x : String} :
    CleanupAction.deleteDeadLetterQueue x ∈ cleanup r hc ↔
      r.DeadLetterQueueUrl = some x := by
  simp [cleanup, cancelSends, List.mem_append, mem_optAct, memIfNil]

/-- Witness for C10 at a concrete environment whose attempts all succeed. -/
theorem notifierFailureBranchUnreachableWitness :
    createSNSNotifier envSample ≠ .error .roleInitFailed ∧
    (createSNSNotifier envSample = .ok envSample.topicArn ∨
      createSNSNotifier envSample = .error (.pollFailed (.provisioningTimeout
        "role for SNS invocation of lambda function failure feedback"))) :=
  notifierFailureBranchUnreachable envSample

/-- C7 counterexample: on a fully populated manifest the operation order
the source performs differs from the order the claim states: the code
awaits the collectors only after deleting the function, the log group and
the ephemeral roles (just before deleting the topic), whereas the claimed
order awaits them before deleting the function. -/
theorem cleanupOrderCounterexample :
    cleanup manifestFull true ≠ cleanupSpecOrder manifestFull true := by
  decide

/-- C7 amended: cleanup performs unsubscribe, then initiates the stop
sentinel sends (the response-queue sentinel only when a collector handle
exists), then deletes the function, the log group, and - only under the
ephemeral role policy - the execution and feedback roles, then awaits the
collectors, then deletes the request topic, the response queue and the
dead-letter queue, in that order (StageSorted with the stage numbering of
the code); each action occurs exactly for the manifest fields that are
present, so any subset of fields may be unset, and cached roles are never
deleted. -/
theorem cleanupOrderAndTolerance (r : AWSResources) (hc : Bool) :
    StageSorted (cleanup r hc) ∧
    CleanupAction.awaitCollectors ∈ cleanup r hc ∧
    (∀ x, CleanupAction.unsubscribe x ∈ cleanup r hc ↔
      r.SNSLambdaSubscriptionArn = some x) ∧
    (∀ x, CleanupAction.sendStopToResponseQueue x ∈ cleanup r hc ↔
      hc = true ∧ r.ResponseQueueUrl = some x) ∧
    (∀ x, CleanupAction.sendStopToDLQ x ∈ cleanup r hc ↔
      r.DeadLetterQueueUrl = some x) ∧
    (∀ x, CleanupAction.deleteFunction x ∈ cleanup r hc ↔
      r.FunctionName = some x) ∧
    (∀ x, CleanupAction.deleteLogGroup x ∈ cleanup r hc ↔
      r.logGroupName = some x) ∧
    (∀ x, CleanupAction.deleteExecutionRole x ∈ cleanup r hc ↔
      r.rolePolicy = some RoleHandling.createTemporaryRole ∧ r.RoleName = some x) ∧
    (∀ x, CleanupAction.deleteFeedbackRole x ∈ cleanup r hc ↔
      r.rolePolicy = some RoleHandling.createTemporaryRole ∧
        r.SNSFeedbackRole = some x) ∧
    (∀ x, CleanupAction.deleteRequestTopic x ∈ cleanup r hc ↔
      r.RequestTopicArn = some x) ∧
    (∀ x, CleanupAction.deleteResponseQueue x ∈ cleanup r hc ↔
      r.ResponseQueueUrl = some x) ∧
    (∀ x, CleanupAction.deleteDeadLetterQueue x ∈ cleanup r hc ↔
      r.DeadLetterQueueUrl = some x) :=
  ⟨cleanup_sorted r hc, mem_cleanup_await,
   fun _ => mem_cleanup_unsubscribe, fun _ => mem_cleanup_sendStopResp,
   fun _ => mem_cleanup_sendStopDLQ, fun _ => mem_cleanup_deleteFunction,
   fun _ => mem_cleanup_deleteLogGroup, fun _ => mem_cleanup_deleteExecutionRole,
   fun _ => mem_cleanup_deleteFeedbackRole, fun _ => mem_cleanup_deleteRequestTopic,
   fun _ => mem_cleanup_deleteResponseQueue,
   fun _ => mem_cleanup_deleteDeadLetterQueue⟩

/-- Witness for C7 at the fully populated ephemeral-policy manifest with
a live collector handle. -/
theorem cleanupOrderAndToleranceWitness :
    StageSorted (cleanup manifestFull true) ∧
    CleanupAction.awaitCollectors ∈ cleanup manifestFull true ∧
    (∀ x, CleanupAction.unsubscribe x ∈ cleanup manifestFull true ↔
      manifestFull.SNSLambdaSubscriptionArn = some x) ∧
    (∀ x, CleanupAction.sendStopToResponseQueue x ∈ cleanup manifestFull true ↔
      true = true ∧ manifestFull.ResponseQueueUrl = some x) ∧
    (∀ x, CleanupAction.sendStopToDLQ x ∈ cleanup manifestFull true ↔
      manifestFull.DeadLetterQueueUrl = some x) ∧
    (∀ x, CleanupAction.deleteFunction x ∈ cleanup manifestFull true ↔
      manifestFull.FunctionName = some x) ∧
    (∀ x, CleanupAction.deleteLogGroup x ∈ cleanup manifestFull true ↔
      manifestFull.logGroupName = some x) ∧
    (∀ x, CleanupAction.deleteExecutionRole x ∈ cleanup manifestFull true ↔
      manifestFull.rolePolicy = some RoleHandling.createTemporaryRole ∧
        manifestFull.RoleName = some x) ∧
    (∀ x, CleanupAction.deleteFeedbackRole x ∈ cleanup manifestFull true ↔
      manifestFull.rolePolicy = some RoleHandling.createTemporaryRole ∧
        manifestFull.SNSFeedbackRole = some x) ∧
    (∀ x, CleanupAction.deleteRequestTopic x ∈ cleanup manifestFull true ↔
      manifestFull.RequestTopicArn = some x) ∧
    (∀ x, CleanupAction.deleteResponseQueue x ∈ cleanup manifestFull true ↔
      manifestFull.ResponseQueueUrl = some x) ∧
    (∀ x, CleanupAction.deleteDeadLetterQueue x ∈ cleanup manifestFull true ↔
      manifestFull.DeadLetterQueueUrl = some x) :=
  cleanupOrderAndTolerance manifestFull true

theorem filter_cancelSends (r : AWSResources) (b : Bool) :
    (cancelSends r b).filter isDeletion = [] := by
  rw [cancelSends]
  by_cases hb : b = true
  · rw [if_pos hb]
    cases r.ResponseQueueUrl <;> cases r.DeadLetterQueueUrl <;>
      simp [optAct, isDeletion]
  · rw [if_neg hb]
    cases r.DeadLetterQueueUrl <;> simp [optAct, isDeletion]

theorem cleanup_filter_hc (r : AWSResources) (hc : Bool) :
    (cleanup r hc).filter isDeletion = (cleanup r false).filter isDeletion := by
  rw [cleanup, cleanup]
  simp only [List.filter_append, filter_cancelSends, List.nil_append]

/-- C9: applied to a parsed manifest record, cleanupResources throws
MalformedManifest when the region is falsy (in particular when the field
is absent), before any cleanup work; otherwise it runs the same cleanup
over the manifest with a fresh state that has no collector handle, and
the deletions it performs are exactly those an in-process cleanup with
any collector-handle state would perform on the same manifest. -/
theorem cleanupResourcesContract (r : AWSResources) :
    (truthyOptStr r.region = false →
      cleanupResources r = .error .malformedManifest) ∧
    (truthyOptStr r.region = true →
      cleanupResources r = .ok (cleanup r false) ∧
      ∀ hc : Bool, (cleanup r hc).filter isDeletion
        = (cleanup r false).filter isDeletion) := by
  constructor
  · intro h
    simp [cleanupResources, h]
  · intro h
    refine ⟨by simp [cleanupResources, h], fun hc => cleanup_filter_hc r hc⟩

/-- Witness for C9 at a manifest without a region and at the fully
populated manifest. -/
theorem cleanupResourcesContractWitness :
    cleanupResources
        ⟨some "fn", some "role", some RoleHandling.createTemporaryRole, some "lg",
         none, some "topic", some "rq", some "dlq", some "sub", some "fbrole"⟩
      = .error .malformedManifest ∧
    cleanupResources manifestFull = .ok (cleanup manifestFull false) ∧
    (cleanup manifestFull true).filter isDeletion
      = (cleanup manifestFull false).filter isDeletion :=
  ⟨(cleanupResourcesContract
      ⟨some "fn", some "role", some RoleHandling.createTemporaryRole, some "lg",
       none, some "topic", some "rq", some "dlq", some "sub", some "fbrole"⟩).1
    (by decide),
   ((cleanupResourcesContract manifestFull).2 (by decide)).1,
   ((cleanupResourcesContract manifestFull).2 (by decide)).2 true⟩

theorem runInit_error (names : InitNames) :
    ∀ (steps : List InitStep) (r : AWSResources) (failsAt : InitStep → Bool)
      (m : AWSResources) (acts : List CleanupAction),
      runInit names r steps failsAt = .error (m, acts) → acts = cleanup m false := by
  intro steps
  induction steps with
  | nil =>
    intro r failsAt m acts h
    cases h
  | cons s rest ih =>
    intro r failsAt m acts h
    by_cases hf : failsAt s = true
    · simp only [runInit, hf, if_true] at h
      injection h with h
      injection h with h1 h2
      rw [← h2, h1]
    · rw [Bool.not_eq_true] at hf
      simp only [runInit, hf, Bool.false_eq_true, if_false] at h
      exact ih _ _ m acts h

theorem runInit_ok_iff (names : InitNames) :
    ∀ (steps : List InitStep) (r : AWSResources) (failsAt : InitStep → Bool),
      (∃ st, runInit names r steps failsAt = .ok st) ↔
        ∀ s ∈ steps, failsAt s = false := by
  intro steps
  induction steps with
  | nil =>
    intro r failsAt
    constructor
    · intro _ s hs
      cases hs
    · intro _
      exact ⟨r, rfl⟩
  | cons s rest ih =>
    intro r failsAt
    by_cases hf : failsAt s = true
    · simp only [runInit, hf, if_true]
      constructor
      · rintro ⟨st, h⟩
        cases h
      · intro hall
        have hcontra := hall s (List.mem_cons_self _ _)
        rw [hf] at hcontra
        cases hcontra
    · rw [Bool.not_eq_true] at hf
      simp only [runInit, hf, Bool.false_eq_true, if_false]
      rw [ih]
      constructor
      · intro hall s2 hs2
        rcases List.mem_cons.mp hs2 with h2 | h2
        · rw [h2]
          exact hf
        · exact hall s2 h2
      · intro hall s2 hs2
        exact hall s2 (List.mem_cons_of_mem _ hs2)

/-- C6: whenever any provisioning step fails (including the concurrent
createFunction whose failures - name collision among them - surface at
its await), the run ends in an error that carries the cleanup of exactly
the partial manifest accumulated so far, performed before the error
propagates; that cleanup contains a deletion for every resource the
partial manifest records (with roles deleted exactly under the ephemeral
policy, cached roles being shared by design); and the run succeeds iff no
step fails. -/
theorem provisionCleanupOnFailure (names : InitNames) (useQueue : Bool)
    (failsAt : InitStep → Bool) :
    (∀ m acts, provisionAWS names useQueue failsAt = .error (m, acts) →
      acts = cleanup m false ∧
      (∀ x, m.SNSLambdaSubscriptionArn = some x →
        CleanupAction.unsubscribe x ∈ acts) ∧
      (∀ x, m.FunctionName = some x → CleanupAction.deleteFunction x ∈ acts) ∧
      (∀ x, m.logGroupName = some x → CleanupAction.deleteLogGroup x ∈ acts) ∧
      (∀ x, m.RequestTopicArn = some x →
        CleanupAction.deleteRequestTopic x ∈ acts) ∧
      (∀ x, m.ResponseQueueUrl = some x →
        CleanupAction.deleteResponseQueue x ∈ acts) ∧
      (∀ x, m.DeadLetterQueueUrl = some x →
        CleanupAction.deleteDeadLetterQueue x ∈ acts) ∧
      (m.rolePolicy = some RoleHandling.createTemporaryRole →
        (∀ x, m.RoleName = some x → CleanupAction.deleteExecutionRole x ∈ acts) ∧
        (∀ x, m.SNSFeedbackRole = some x →
          CleanupAction.deleteFeedbackRole x ∈ acts))) ∧
    ((∃ st, provisionAWS names useQueue failsAt = .ok st) ↔
      ∀ s ∈ initSteps useQueue, failsAt s = false) := by
  constructor
  · intro m acts h
    have hacts := runInit_error names (initSteps useQueue) (baseResources names)
      failsAt m acts h
    subst hacts
    refine ⟨rfl, ?_, ?_, ?_, ?_, ?_, ?_, ?_⟩
    · intro x hx
      exact mem_cleanup_unsubscribe.mpr hx
    · intro x hx
      exact mem_cleanup_deleteFunction.mpr hx
    · intro x hx
      exact mem_cleanup_deleteLogGroup.mpr hx
    · intro x hx
      exact mem_cleanup_deleteRequestTopic.mpr hx
    · intro x hx
      exact mem_cleanup_deleteResponseQueue.mpr hx
    · intro x hx
      exact mem_cleanup_deleteDeadLetterQueue.mpr hx
    · intro hpol
      exact ⟨fun x hx => mem_cleanup_deleteExecutionRole.mpr ⟨hpol, hx⟩,
        fun x hx => mem_cleanup_deleteFeedbackRole.mpr ⟨hpol, hx⟩⟩
  · exact runInit_ok_iff names (initSteps useQueue) (baseResources names) failsAt

/-- Witness for C6: in queue mode with the await of the concurrent
createFunction failing (the name-collision case), provisioning fails with
the partial manifest that already records the DLQ, feedback role, request
topic and response queue, and its cleanup deletes the recorded topic,
queues and log group. -/
theorem provisionCleanupOnFailureWitness :
    provisionAWS namesSample true (fun s => s == InitStep.awaitCreateFunction)
      = .error (manifestAtCollision, cleanup manifestAtCollision false) ∧
    CleanupAction.deleteRequestTopic "topicArn0" ∈ cleanup manifestAtCollision false ∧
    CleanupAction.deleteResponseQueue "respUrl0" ∈ cleanup manifestAtCollision false ∧
    CleanupAction.deleteDeadLetterQueue "dlqUrl0" ∈ cleanup manifestAtCollision false ∧
    CleanupAction.deleteLogGroup "/aws/lambda/cloudify-n0"
      ∈ cleanup manifestAtCollision false :=
  ⟨by rfl,
   ((provisionCleanupOnFailure namesSample true
        (fun s => s == InitStep.awaitCreateFunction)).1 manifestAtCollision
      (cleanup manifestAtCollision false) (by rfl)).2.2.2.2.1 "topicArn0" rfl,
   ((provisionCleanupOnFailure namesSample true
        (fun s => s == InitStep.awaitCreateFunction)).1 manifestAtCollision
      (cleanup manifestAtCollision false) (by rfl)).2.2.2.2.2.1 "respUrl0" rfl,
   ((provisionCleanupOnFailure namesSample true
        (fun s => s == InitStep.awaitCreateFunction)).1 manifestAtCollision
      (cleanup manifestAtCollision false) (by rfl)).2.2.2.2.2.2.1 "dlqUrl0" rfl,
   ((provisionCleanupOnFailure namesSample true
        (fun s => s == InitStep.awaitCreateFunction)).1 manifestAtCollision
      (cleanup manifestAtCollision false) (by rfl)).2.2.2.1
     "/aws/lambda/cloudify-n0" rfl⟩

end Faast
